import Mathlib

/-!
Verification of the Bookei book-generation engine (`src/final.py`, with
`src/gui.py` a near-duplicate front-end sharing the same core logic).

The Python source is shallowly embedded: pure helper functions become Lean
functions over `Nat` / `String` / `List Char`; the retry/orchestration loops
become recursions over an explicit stream of modelled API-call events.
Python's IEEE-double arithmetic (`int(w * 1.8)`, `int(t * (1 - 0.20))`,
`int(t * 0.85)`, `math.ceil(a / b)`) is embedded as exact natural-number
arithmetic (`9 * w / 5`, `4 * t / 5`, `17 * t / 20`, `(a + b - 1) / b`);
on the program's admissible input ranges (`wordsPerChapter` in 100..15000 and
the derived targets) the double computations agree exactly with these values.
-/

namespace Bookei

/-! ### Python string primitives (modelled at the character level) -/

/-- Python `str.strip()`: remove leading and trailing whitespace characters. -/
def pyStripChars (l : List Char) : List Char :=
  ((l.dropWhile Char.isWhitespace).reverse.dropWhile Char.isWhitespace).reverse

/-- Python `str.strip()` on `String`. -/
def pyStrip (s : String) : String :=
  String.mk (pyStripChars s.data)

/-- Python `str.startswith(p)`: the character list of `p` is a prefix. -/
def pyStartsWith (s p : String) : Bool :=
  p.data.isPrefixOf s.data

/-- Worker of Python `str.split()`: accumulate the current word in reverse,
flush it at each whitespace character and at the end. -/
def pySplitAux : List Char → List Char → List (List Char)
  | [], cur => if cur = [] then [] else [cur.reverse]
  | c :: cs, cur =>
    if c.isWhitespace then
      if cur = [] then pySplitAux cs []
      else cur.reverse :: pySplitAux cs []
    else pySplitAux cs (c :: cur)

/-- Python `str.split()` with no separator: split on runs of whitespace,
discarding empty pieces.  (Python also splits on some Unicode whitespace that
`Char.isWhitespace` does not cover; the program only meets ASCII whitespace.) -/
def pySplitChars (l : List Char) : List (List Char) := pySplitAux l []

/-- Python `str.split()` on `String`. -/
def pySplit (s : String) : List String :=
  (pySplitChars s.data).map String.mk

/-- Python `str.splitlines()` restricted to `"\n"` line endings (the only
line ending the program produces or consumes). -/
def pySplitlinesChars : List Char → List (List Char)
  | [] => []
  | c :: cs =>
    if c = '\n' then [] :: pySplitlinesChars cs
    else
      match pySplitlinesChars cs with
      | [] => [[c]]
      | l :: ls => (c :: l) :: ls

/-- Python `str.splitlines()` on `String`. -/
def pySplitlines (s : String) : List String :=
  (pySplitlinesChars s.data).map String.mk

/-- Python `s[-n:]` for `n > 0`: the trailing `n` characters (the whole string
when it is shorter).  The source only uses `n = 2000` and `n = 1000`. -/
def pyTakeRight (s : String) (n : Nat) : String :=
  String.mk (s.data.drop (s.data.length - n))

/-- Python `str.lower()` (ASCII case folding, which covers the program's
error-message vocabulary). -/
def pyLower (s : String) : String :=
  String.mk (s.data.map Char.toLower)

/-- Python `sub in s`: substring containment, as list infix. -/
def pyContains (s sub : String) : Prop :=
  sub.data <:+: s.data

instance (s sub : String) : Decidable (pyContains s sub) :=
  inferInstanceAs (Decidable (sub.data <:+: s.data))

/-! ### String-append plumbing for prompt assembly -/

theorem strData_append (a b : String) : (a ++ b).data = a.data ++ b.data := by
  cases a; cases b; rfl

theorem strAppend_assoc (a b c : String) : (a ++ b) ++ c = a ++ (b ++ c) := by
  cases a; cases b; cases c
  simp only [show ∀ x y : List Char, String.mk x ++ String.mk y = String.mk (x ++ y)
    from fun _ _ => rfl, List.append_assoc]

theorem strEmpty_append (s : String) : "" ++ s = s := by
  cases s; rfl

/-- Concatenation of an ordered list of prompt pieces (right-nested). -/
def strJoin (ps : List String) : String :=
  ps.foldr (· ++ ·) ""

/-- A string occurs as a contiguous segment of another string. -/
def containsSegment (s sub : String) : Prop :=
  ∃ a b : String, s = a ++ (sub ++ b)

theorem containsSegment_append_left (s t x : String)
    (h : containsSegment t x) : containsSegment (s ++ t) x := by
  obtain ⟨a, b, rfl⟩ := h
  exact ⟨s ++ a, b, (strAppend_assoc s a (x ++ b)).symm⟩

theorem containsSegment_head (x t : String) : containsSegment (x ++ t) x :=
  ⟨"", t, (strEmpty_append (x ++ t)).symm⟩

/-- A piece of a joined list is a segment of the join. -/
theorem mem_strJoin_containsSegment {x : String} {ps : List String}
    (h : x ∈ ps) : containsSegment (strJoin ps) x := by
  induction ps with
  | nil => cases h
  | cons p rest ih =>
    rcases List.mem_cons.mp h with rfl | hx
    · exact containsSegment_head x (strJoin rest)
    · exact containsSegment_append_left p (strJoin rest) x (ih hx)

theorem strJoin_append (l₁ l₂ : List String) :
    strJoin (l₁ ++ l₂) = strJoin l₁ ++ strJoin l₂ := by
  induction l₁ with
  | nil =>
    show strJoin l₂ = "" ++ strJoin l₂
    exact (strEmpty_append _).symm
  | cons p rest ih =>
    show p ++ strJoin (rest ++ l₂) = (p ++ strJoin rest) ++ strJoin l₂
    rw [ih, strAppend_assoc]

/-! ### Constants (`final.py` lines 19-22) -/

/-- Sentinel string returned by `getResponse` on a quota/rate-limit failure. -/
def QUOTA_EXCEEDED_ERROR_STRING : String := "QUOTA_EXCEEDED"

/-- Max attempts for generating a single piece (chapter/sub/outline chunk). -/
def MAX_GENERATION_ATTEMPTS : Nat := 4

/-- Generate outline in chunks if total items exceed this. -/
def OUTLINE_CHUNK_THRESHOLD : Nat := 15

/-- How many chapters to outline per API call in chunked mode. -/
def CHAPTERS_PER_OUTLINE_CHUNK : Nat := 3

/-! ### Derived configuration (`final.py` lines 648-670)

Python computes `ceil(w / 500)` and `ceil(w / n)` with float division and
`math.ceil`; for `w ≤ 15000` these agree exactly with natural ceiling
division `(a + b - 1) / b`. -/

/-- Ceiling division on naturals: `math.ceil(a / b)` for the source's ranges. -/
def ceilNatDiv (a b : Nat) : Nat := (a + b - 1) / b

def SUBCHAPTER_THRESHOLD : Nat := 1500

def TARGET_SUBCHAPTER_WORDS : Nat := 500

/-- `numberOfSubchapters` as computed at `final.py` 651-657: `0` when
`wordsPerChapter ≤ 1500`, else `max(3, ceil(wordsPerChapter / 500))`. -/
def numberOfSubchapters (wordsPerChapter : Nat) : Nat :=
  if SUBCHAPTER_THRESHOLD < wordsPerChapter then
    max 3 (ceilNatDiv wordsPerChapter TARGET_SUBCHAPTER_WORDS)
  else 0

/-- `wordsPerSubchapter` as computed at `final.py` 654-657. -/
def wordsPerSubchapter (wordsPerChapter : Nat) : Nat :=
  if SUBCHAPTER_THRESHOLD < wordsPerChapter then
    ceilNatDiv wordsPerChapter (numberOfSubchapters wordsPerChapter)
  else 0

/-- `total_outline_items` as computed at `final.py` 659-660. -/
def total_outline_items (numberOfChapters wordsPerChapter : Nat) : Nat :=
  if 0 < numberOfSubchapters wordsPerChapter then
    numberOfChapters * numberOfSubchapters wordsPerChapter
  else numberOfChapters

/-- The whole derived configuration, recomputed from the book parameters
(`DerivedConfig` is a pure function of the `BookSpec`). -/
structure DerivedConfig where
  subchapters : Nat
  subchapterWords : Nat
  outlineItems : Nat
deriving DecidableEq, Repr

def deriveConfig (numberOfChapters wordsPerChapter : Nat) : DerivedConfig :=
  { subchapters := numberOfSubchapters wordsPerChapter
    subchapterWords := wordsPerSubchapter wordsPerChapter
    outlineItems := total_outline_items numberOfChapters wordsPerChapter }

/-- `wordsPerChapter_gen = I_wordsPerChapter * 1.8` (`final.py` 665-667),
followed everywhere by `int(...)`: on the admissible range the IEEE-double
product truncates to `⌊9w/5⌋`. -/
def wordsPerChapter_gen (wordsPerChapter : Nat) : Nat :=
  9 * wordsPerChapter / 5

/-- `wordsPerSubchapter_gen = wordsPerSubchapter * 1.8 if wordsPerSubchapter > 0
else 0` (`final.py` 666), as its `int(...)` image. -/
def wordsPerSubchapter_gen (wordsPerChapter : Nat) : Nat :=
  if 0 < wordsPerSubchapter wordsPerChapter then
    9 * wordsPerSubchapter wordsPerChapter / 5
  else 0

/-! ### removeBrackets (`final.py` lines 75-82)

`text.replace(">", "").replace("<", "")`: each `replace` of a single
character by the empty string removes every occurrence of that character. -/

/-- Python `text.replace(c, "")` for a one-character pattern. -/
def pyRemoveChar (s : String) (c : Char) : String :=
  String.mk (s.data.filter (fun d => d ≠ c))

/-- Removes the `<` and `>` characters from a string. -/
def removeBrackets (text : String) : String :=
  pyRemoveChar (pyRemoveChar text '>') '<'

/-! ### Outline-section extraction (`final.py` lines 184-225)

The chapter / sub-chapter prompt scans the outline line by line for the
matching marker, collecting lines until the next equal-or-higher marker or a
blank line. -/

/-- The chapter search string `f"Chapter: {currentChapter}:"`. -/
def chapterSearchStr (currentChapter : Nat) : String :=
  "Chapter: " ++ toString currentChapter ++ ":"

/-- The sub-chapter search string `f"- Sub-Chapter: {currentSubchapter}:"`. -/
def subchapterSearchStr (currentSubchapter : Nat) : String :=
  "- Sub-Chapter: " ++ toString currentSubchapter ++ ":"

/-- One pass of the scanning loop (`final.py` 194-215) over the outline's
lines.  `isMarker` is the match on the unit's own search string; `isStop` is
the `elif` break condition (next marker of equal-or-higher level, or blank
line); non-blank lines inside the matched section are collected. -/
def sectionScan (isMarker isStop : String → Bool) :
    List String → Bool → List String
  | [], _ => []
  | line :: rest, inSec =>
    let stripped := pyStrip line
    if isMarker stripped then line :: sectionScan isMarker isStop rest true
    else if inSec && isStop stripped then []
    else if inSec && stripped ≠ "" then
      line :: sectionScan isMarker isStop rest inSec
    else sectionScan isMarker isStop rest inSec

/-- Break condition for a chapter section (option 2): the next `Chapter:`
marker or a blank line. -/
def chapterStop (stripped : String) : Bool :=
  pyStartsWith stripped "Chapter:" || stripped = ""

/-- Break condition for a sub-chapter section (option 3): the next
sub-chapter marker, the next chapter marker, or a blank line. -/
def subchapterStop (stripped : String) : Bool :=
  pyStartsWith stripped "- Sub-Chapter:" || pyStartsWith stripped "Chapter:" ||
    stripped = ""

/-- `section_lines` as accumulated by the loop at `final.py` 192-215. -/
def sectionLinesFor (option : Nat) (bookOutline : String)
    (currentChapter currentSubchapter : Nat) : List String :=
  let outline_lines := pySplitlines bookOutline
  if option = 2 then
    sectionScan (fun l => pyStartsWith l (chapterSearchStr currentChapter))
      chapterStop outline_lines false
  else
    sectionScan (fun l => pyStartsWith l (subchapterSearchStr currentSubchapter))
      subchapterStop outline_lines false

/-- The visible placeholder embedded when no outline section matches
(`final.py` 186). -/
def outlineErrorPlaceholder (unit_type current_unit_num : String) : String :=
  "[ERROR: Could not extract outline for " ++ unit_type ++ " " ++
    current_unit_num ++ "]"

/-- `relevant_outline` (`final.py` 186-222): the joined section lines when the
scan found any, otherwise the error placeholder. -/
def relevantOutline (option : Nat) (bookOutline : String)
    (currentChapter currentSubchapter : Nat)
    (unit_type current_unit_num : String) : String :=
  let section_lines :=
    sectionLinesFor option bookOutline currentChapter currentSubchapter
  if section_lines ≠ [] then String.intercalate "\n" section_lines
  else outlineErrorPlaceholder unit_type current_unit_num

/-! ### generatePrompt (`final.py` lines 85-279)

The prompt builder's parameters, in the source's order.  `wordsPerChapter`
and `wordsPerSubchapter` arrive as floats and are immediately truncated with
`int(...)` (lines 95-96); the model carries the already-truncated naturals. -/

structure PromptArgs where
  bookName : String
  bookGenre : List String
  numberOfChapters : Nat
  bookBrief : String
  combinedChapterDetails : String
  wordsPerChapter : Nat
  wordsPerSubchapter : Nat
  bookOutline : String
  numberOfSubchapters : Nat
  lastGeneratedSubchapter_Full : String
  lastGeneratedChapter_Full : String
  currentChapter : Nat
  currentSubchapter : Nat
  character_bios : String := ""
  world_notes : String := ""
  start_chapter_chunk : Option Nat := none
  end_chapter_chunk : Option Nat := none
  previous_outline_context : String := ""
deriving DecidableEq, Repr

/-- `MAX_CONTEXT_CHARS` (`final.py` 102). -/
def MAX_CONTEXT_CHARS : Nat := 2000

/-- `prev_chap_context` (`final.py` 103). -/
def prevChapContext (lastGeneratedChapter_Full : String) : String :=
  if lastGeneratedChapter_Full ≠ "" then
    "... " ++ pyTakeRight lastGeneratedChapter_Full MAX_CONTEXT_CHARS
  else "N/A - This is the first chapter."

/-- `prev_sub_context` (`final.py` 104). -/
def prevSubContext (lastGeneratedSubchapter_Full : String) : String :=
  if lastGeneratedSubchapter_Full ≠ "" then
    "... " ++ pyTakeRight lastGeneratedSubchapter_Full MAX_CONTEXT_CHARS
  else "N/A - This is the first sub-chapter of the chapter or book."

/-- `character_context` (`final.py` 108). -/
def characterContext (character_bios : String) : String :=
  if character_bios ≠ "" then "\n- Character Notes: " ++ character_bios else ""

/-- `world_context` (`final.py` 109). -/
def worldContext (world_notes : String) : String :=
  if world_notes ≠ "" then "\n- World/Setting Notes: " ++ world_notes else ""

/-- `unit_type` (`final.py` 178). -/
def unitTypeOf (option : Nat) : String :=
  if option = 2 then "chapter" else "sub-chapter"

/-- `current_unit_num` (`final.py` 179). -/
def currentUnitNum (option currentChapter currentSubchapter : Nat) : String :=
  if option = 2 then toString currentChapter
  else toString currentChapter ++ "-" ++ toString currentSubchapter

/-- `min_target_words = int(target_words * 0.85)` (`final.py` 181): the 85%
prompt-side minimum, `⌊17t/20⌋` under exact arithmetic. -/
def minTargetWords (target_words : Nat) : Nat := 17 * target_words / 20

/-- `relevant_outline` of the content prompt, from the prompt arguments. -/
def relevantOutlineFor (option : Nat) (args : PromptArgs) : String :=
  relevantOutline option args.bookOutline args.currentChapter
    args.currentSubchapter (unitTypeOf option)
    (currentUnitNum option args.currentChapter args.currentSubchapter)

/-- `storytelling_guidelines` (`final.py` 229-240). -/
def storytellingGuidelines (bookGenre_str : String) : String :=
  "\nWRITING STYLE & QUALITY GUIDELINES:\n*   **Show, Don't Tell:** Instead of stating emotions or facts, describe the actions, dialogue, sensations, and internal thoughts that reveal them.\n*   **Sensory Details:** Engage the reader by incorporating vivid details related to sight, sound, smell, touch, and taste relevant to the scene.\n*   **Character Depth:** Explore the character(s)' motivations, internal thoughts, feelings, and reactions to events. Maintain consistent character voices.\n*   **Pacing:** Vary sentence length and paragraph structure to control the pace. Use shorter sentences for action, longer ones for description or reflection.\n*   **Atmosphere & Tone:** Establish and maintain the appropriate mood (e.g., suspenseful, melancholic, exciting) using descriptive language and word choice consistent with the genre ("
    ++ bookGenre_str ++
    ").\n*   **Engaging Narrative:** Write compelling prose that draws the reader in. Use strong verbs and avoid clichÃ©s.\n*   **Dialogue:** Craft natural-sounding dialogue that reveals character personality, relationships, and advances the plot. Avoid exposition dumps in dialogue.\n*   **Smooth Transitions:** Ensure logical flow between paragraphs and scenes.\n*   **Expand on Outline:** Use the provided outline section as a framework, but flesh it out with rich detail, character interactions, and immersive descriptions. Do not simply list the outline points. Bring the events to life.\n"

/-- The ordered pieces of the chapter / sub-chapter prompt f-string
(`final.py` 243-275); their concatenation is the returned prompt. -/
def contentPromptPieces (option : Nat) (args : PromptArgs) : List String :=
  let unit_type := unitTypeOf option
  let current_unit_num :=
    currentUnitNum option args.currentChapter args.currentSubchapter
  let target_words :=
    if option = 2 then args.wordsPerChapter else args.wordsPerSubchapter
  let bookGenre_str := String.intercalate ", " args.bookGenre
  let last_content_context :=
    if option = 2 then prevChapContext args.lastGeneratedChapter_Full
    else prevSubContext args.lastGeneratedSubchapter_Full
  [ "\nYou are an AI tasked with writing the content for "
  , unit_type, " ", current_unit_num
  , " of the book \"", args.bookName
  , "\".\nYour writing should be engaging, descriptive, and aligned with the "
  , bookGenre_str, " genre.\n\n"
  , storytellingGuidelines bookGenre_str
  , "\n\nCONTENT REQUIREMENTS:\n*   Generate APPROXIMATELY "
  , toString target_words
  , " words (+-15% is acceptable). "
  , "Minimum should be around ", toString (minTargetWords target_words), " words."
  , "\n*   The story MUST expand upon the provided Book Outline section for "
  , unit_type, " ", current_unit_num
  , ". Include all key events, but develop them naturally within the narrative.\n*   ONLY generate content for "
  , unit_type, " ", current_unit_num
  , ".\n*   Maintain narrative continuity, flowing smoothly from the previous content provided.\n*   Stay focused on the events and themes relevant to this specific "
  , unit_type
  , ".\n\nSTRICT OUTPUT FORMAT:\n*   ONLY output the raw text content for "
  , unit_type, " ", current_unit_num
  , ".\n*   DO NOT include headers like \"Chapter: ...\" or \"Sub-Chapter: ...\".\n*   DO NOT use markdown formatting.\n*   Write in coherent paragraphs.\n\nCONTEXT:\n- Book Name: \""
  , args.bookName
  , "\"\n- Book Genre: \"", bookGenre_str
  , "\"\n- Total Number of Chapters: \"", toString args.numberOfChapters
  , "\"\n- Plot Summary: \"", args.bookBrief
  , "\"\n- Specific Chapter Details (User Input): \"", args.combinedChapterDetails
  , "\"\n- Book Outline (Relevant Section for ", unit_type, " ", current_unit_num
  , "): \""
  , relevantOutlineFor option args
  , "\"\n- Target Words for this ", unit_type, ": \"", toString target_words
  , "\"\n", characterContext args.character_bios
  , "\n", worldContext args.world_notes
  , "\n- Previous Content End Snippet (for flow): \""
  , last_content_context
  , "\"\n\nGenerate the content for ", unit_type, " ", current_unit_num
  , " now, following all instructions and focusing on high-quality, immersive storytelling.\n"
  ]

/-- The ordered pieces of the outline prompt f-string (`final.py` 112-175). -/
def outlinePromptPieces (args : PromptArgs) : List String :=
  let bookGenre_str := String.intercalate ", " args.bookGenre
  let sub_needed_text := if 0 < args.numberOfSubchapters then "Yes" else "No"
  let sub_instruction :=
    if 0 < args.numberOfSubchapters then
      "Generate EXACTLY " ++ toString args.numberOfSubchapters ++
        " sub-chapters per chapter."
    else "DO NOT generate sub-chapters."
  let chunked :=
    match args.start_chapter_chunk, args.end_chapter_chunk with
    | some s, some e => some (s, e)
    | _, _ => none
  let task_description :=
    match chunked with
    | some (s, e) =>
      "You are generating PART of a 'Book Outline' for chapters " ++
        toString s ++ " through " ++ toString e ++ "."
    | none =>
      "You are an AI that is made for generating a complete 'Book Outline' based on simple information given about a book."
  let chapter_range_instruction :=
    match chunked with
    | some (s, e) =>
      "ONLY generate the outline details for chapters " ++ toString s ++
        " to " ++ toString e ++ " inclusive."
    | none =>
      "Generate the outline for ALL " ++ toString args.numberOfChapters ++
        " chapters."
  let context_instruction :=
    match chunked with
    | some _ =>
      if args.previous_outline_context ≠ "" then
        "Ensure the summaries for these chapters flow logically from the previous part of the outline and contribute to the overall plot arc. The end of the previous section is:\n\"... "
          ++ pyTakeRight args.previous_outline_context 1000 ++ "\""
      else "This is the first chunk of the outline."
    | none =>
      "The whole book outline should form a coherent narrative structure. Each chapter summary must advance the plot, develop characters, or build the world, contributing logically to the overall story arc."
  let scope_text :=
    match chunked with
    | some (s, e) => "for chapters " ++ toString s ++ "-" ++ toString e
    | none => "for the entire book"
  [ "\n", task_description
  , "\nYou will generate a detailed 100-150 word summary for each chapter (and sub-chapter if needed).\nSub-chapters (if needed) break down the chapter's events into manageable narrative segments.\n"
  , sub_instruction
  , " ONLY IF sub-chapters are needed as specified below.\nYou will go chapter by chapter, and if needed, sub-chapter by sub-chapter inside each chapter.\n"
  , chapter_range_instruction
  , "\n\nMAKE SURE summaries are detailed, outlining key events, character actions/reactions, important dialogue points, setting changes, and significant reveals or turning points.\nMAKE SURE to describe the *purpose* of the chapter/sub-chapter within the larger narrative (e.g., introduce conflict, develop relationship, reveal clue, raise stakes).\nMAKE SURE chapters and sub-chapters transition logically, building upon previous events and setting up future ones.\n"
  , context_instruction
  , "\nMAKE SURE the generated outline aligns with the Book Brief, Genre, and specific Chapter Details provided.\n\nONLY output in this format below: DO NOT OUTPUT THE ARROW BRACKETS.\n<\nFor chapters:\nChapter: [chapter_number]: [chapter_name]\n[chapter_summary]\n>\n\nDO NOT OUTPUT THE ARROW BRACKETS.\n\nFor sub-chapters (inside a chapter, ONLY IF NEEDED): DO NOT OUTPUT THE ARROW BRACKETS.\n<\n- Sub-Chapter: [sub-chapter_number]: [sub-chapter_name]\n[sub-chapter_summary]\n>\n\nDO NOT OUTPUT THE ARROW BRACKETS.\n\nONLY output using plain text.\nDO NOT use any markdown formatting.\nDO NOT output any external words or anything besides the formatting.\nDO NOT repeat any chapters/sub-chapters.\n\nI will now provide all the information/context about the book below:\n- Book Name: \""
  , args.bookName
  , "\"\n- Book Genre: \"", bookGenre_str
  , "\"\n- Total Number of Chapters in Book: \"", toString args.numberOfChapters
  , "\"\n- Chapter Details Provided: \"", args.combinedChapterDetails
  , "\"\n- Plot Summary: \"", args.bookBrief
  , "\"\n- Number of sub-chapters per chapter: \"", toString args.numberOfSubchapters
  , "\"\n- Are sub-chapters Needed?: \"", sub_needed_text
  , "\"\n", characterContext args.character_bios
  , "\n", worldContext args.world_notes
  , "\n\nYou MUST follow all guidelines and instructions and generate the most coherent and compelling book outline "
  , scope_text
  , ". DO NOT OUTPUT THE ARROW BRACKETS.\n"
  ]

/-- `generatePrompt` (`final.py` 85-279): option 1 builds the outline prompt,
options 2 and 3 build the chapter / sub-chapter prompt, any other option
yields the error-marker value (line 279). -/
def generatePrompt (option : Nat) (args : PromptArgs) : String :=
  if option = 1 then strJoin (outlinePromptPieces args)
  else if option = 2 || option = 3 then strJoin (contentPromptPieces option args)
  else "Error: Incorrect option number"

/-! ### getResponse (`final.py` lines 281-413)

The HTTP exchange is modelled by its observable shape: a transport failure,
a non-JSON body, or a JSON body carrying an optional `error` payload and (for
the success path) the first candidate's finish reason and text.  A missing
`candidates` entry behaves like an empty candidate (`data.get("candidates",
[{}])[0]`), so the candidate is carried as two optional fields. -/

structure ApiErrorPayload where
  code : Option Int
  message : Option String
deriving DecidableEq, Repr

structure ApiCandidate where
  finishReason : Option String
  text : Option String
deriving DecidableEq, Repr

inductive ApiExchange where
  /-- `requests.exceptions.Timeout` (`final.py` 403). -/
  | timeout
  /-- `requests.exceptions.RequestException` (`final.py` 406). -/
  | requestException (msg : String)
  /-- Response body failed `response.json()` (`final.py` 310-319). -/
  | nonJson (status : Nat)
  /-- Parsed JSON body with HTTP status, optional error payload, and the
  first candidate (defaulted fields when absent). -/
  | jsonBody (status : Nat) (error : Option ApiErrorPayload)
      (candidate : ApiCandidate)
deriving DecidableEq, Repr

/-- The stringly-typed result of `getResponse`: the generated text, the quota
sentinel, or a prefixed error/warning message (`final.py` 281-413). -/
def getResponse (x : ApiExchange) : String :=
  match x with
  | .timeout => "API Error: Request Timeout"
  | .requestException msg => "Request failed: " ++ msg
  | .nonJson status =>
    if status = 429 then QUOTA_EXCEEDED_ERROR_STRING
    else "API Error: " ++ toString status ++ " - Non-JSON Response"
  | .jsonBody status error candidate =>
    match error with
    | some err =>
      let status_code : Int := err.code.getD status
      let error_message := err.message.getD "Unknown error structure"
      if status_code = 429 ∨ pyContains (pyLower error_message) "quota" ∨
          pyContains (pyLower error_message) "rate limit" then
        QUOTA_EXCEEDED_ERROR_STRING
      else "API Error: " ++ toString status_code ++ " - " ++ error_message
    | none =>
      if status = 200 then
        let finish_reason := candidate.finishReason.getD "UNKNOWN"
        if finish_reason ≠ "STOP" ∧ finish_reason ≠ "MAX_TOKENS" then
          match candidate.text with
          | some _ =>
            "API Warning: Generation finished unexpectedly (" ++ finish_reason ++
              "), content may be incomplete."
          | none =>
            "API Error: Generation stopped (" ++ finish_reason ++
              ") with no content."
        else
          match candidate.text with
          | some message => message
          | none =>
            "API Error: No text content found in response (possibly blocked by safety filter)"
      else
        if status = 429 then QUOTA_EXCEEDED_ERROR_STRING
        else "API Error: Status Code " ++ toString status

/-! ### The bounded-retry loop (`final.py` 732-761, 768-792, 855-897, 908-949)

All four generation loops (outline chunk, single-call outline, sub-chapter,
chapter) share the same shape: `attempt = 1; while attempt <=
MAX_GENERATION_ATTEMPTS and not success:` build the prompt from unchanged
arguments, call `getResponse`, then
  - on the quota sentinel consult `handle_quota_error()`: retry the same
    iteration on success (no attempt increment), stop terminally on refusal;
  - on an error/warning-prefixed response increment `attempt` and retry,
    which exits the loop as a terminal failure past the cap;
  - on generated text, optionally discard it when the low-word-count
    regeneration gate is enabled and attempts remain (content loops only,
    `final.py` 884-886 / 937-939), else accept it.
Each loop iteration performs exactly one call, so the loop is a recursion
over the stream of call outcomes. -/

/-- One modelled API call: the string `getResponse` returned, and the answer
`handle_quota_error()` would give if consulted (`True` = new key supplied). -/
structure CallEvent where
  resp : String
  quotaOk : Bool
deriving DecidableEq, Repr

/-- One performed call, as recorded for the theorems: which attempt number it
belonged to, the prompt sent, and the response received. -/
structure CallRecord where
  attempt : Nat
  prompt : String
  resp : String
deriving DecidableEq, Repr

/-- Terminal result of one unit's retry loop. -/
inductive UnitOutcome where
  /-- The unit's text was accepted on the recorded attempt. -/
  | accepted (text : String) (wordCount : Nat) (attempt : Nat)
  /-- The attempt cap was exhausted (`attempt` passed the cap). -/
  | failedMax
  /-- `handle_quota_error()` was refused: the session stops. -/
  | quotaAbort
  /-- Model artifact: the supplied event stream ran out mid-loop. -/
  | starved
deriving DecidableEq, Repr

/-- `response.startswith(...)` chain classifying error/warning responses
(`final.py` 750, 783, 873, 926). -/
def isErrorResponse (s : String) : Bool :=
  pyStartsWith s "API Error:" || pyStartsWith s "Error parsing" ||
    pyStartsWith s "Request failed:" || pyStartsWith s "Unexpected Error:" ||
    pyStartsWith s "API Warning:"

/-- `len(generated_text.split())` (`final.py` 880, 933). -/
def pyWordCount (s : String) : Nat := (pySplitChars s.data).length

/-- The shared retry loop.  `prompt` is rebuilt by `generatePrompt` from
arguments that do not change across the unit's iterations, hence is carried
as a constant.  `regenGate` is `regenOnLowWords` (always false for the two
outline loops, which have no word-count check); `minWords` is the 80% floor.
Returns the outcome, the unconsumed remainder of the event stream, and the
record of the calls performed. -/
def runAttempts (prompt : String) (regenGate : Bool) (minWords : Nat)
    (attempt : Nat) :
    List CallEvent → UnitOutcome × List CallEvent × List CallRecord
  | [] =>
    if MAX_GENERATION_ATTEMPTS < attempt then (.failedMax, [], [])
    else (.starved, [], [])
  | e :: rest =>
    if MAX_GENERATION_ATTEMPTS < attempt then (.failedMax, e :: rest, [])
    else
      let entry : CallRecord := ⟨attempt, prompt, e.resp⟩
      if e.resp = QUOTA_EXCEEDED_ERROR_STRING then
        if e.quotaOk then
          let r := runAttempts prompt regenGate minWords attempt rest
          (r.1, r.2.1, entry :: r.2.2)
        else (.quotaAbort, rest, [entry])
      else if isErrorResponse e.resp then
        let r := runAttempts prompt regenGate minWords (attempt + 1) rest
        (r.1, r.2.1, entry :: r.2.2)
      else
        let word_count := pyWordCount e.resp
        if regenGate && decide (word_count < minWords) &&
            decide (attempt < MAX_GENERATION_ATTEMPTS) then
          let r := runAttempts prompt regenGate minWords (attempt + 1) rest
          (r.1, r.2.1, entry :: r.2.2)
        else (.accepted e.resp word_count attempt, rest, [entry])

/-- Number of attempts a call trace consumed: quota round-trips are not
attempts (`attempt` is not incremented on the quota path). -/
def attemptsUsed (tr : List CallRecord) : Nat :=
  (tr.filter (fun r => r.resp ≠ QUOTA_EXCEEDED_ERROR_STRING)).length

/-! ### Session parameters -/

/-- The user-supplied book parameters a generation session runs on. -/
structure SessionCfg where
  bookName : String
  bookGenre : List String
  numberOfChapters : Nat
  bookBrief : String
  combinedChapterDetails : String
  wordsPerChapter : Nat
  characterBios : String := ""
  worldNotes : String := ""
  regenOnLowWords : Bool := false
deriving DecidableEq, Repr

/-! ### Outline orchestration (`final.py` lines 707-805) -/

/-- Prompt arguments of one outline-chunk call (`final.py` 735-743). -/
def outlineChunkArgs (cfg : SessionCfg) (start_chap end_chap : Nat)
    (previous_outline_context : String) : PromptArgs :=
  { bookName := cfg.bookName
    bookGenre := cfg.bookGenre
    numberOfChapters := cfg.numberOfChapters
    bookBrief := cfg.bookBrief
    combinedChapterDetails := cfg.combinedChapterDetails
    wordsPerChapter := wordsPerChapter_gen cfg.wordsPerChapter
    wordsPerSubchapter := wordsPerSubchapter_gen cfg.wordsPerChapter
    bookOutline := ""
    numberOfSubchapters := numberOfSubchapters cfg.wordsPerChapter
    lastGeneratedSubchapter_Full := ""
    lastGeneratedChapter_Full := ""
    currentChapter := 0
    currentSubchapter := 0
    character_bios := cfg.characterBios
    world_notes := cfg.worldNotes
    start_chapter_chunk := some start_chap
    end_chapter_chunk := some end_chap
    previous_outline_context := previous_outline_context }

/-- Prompt arguments of the single-call outline request (`final.py` 771-776). -/
def outlineSingleArgs (cfg : SessionCfg) : PromptArgs :=
  { bookName := cfg.bookName
    bookGenre := cfg.bookGenre
    numberOfChapters := cfg.numberOfChapters
    bookBrief := cfg.bookBrief
    combinedChapterDetails := cfg.combinedChapterDetails
    wordsPerChapter := wordsPerChapter_gen cfg.wordsPerChapter
    wordsPerSubchapter := wordsPerSubchapter_gen cfg.wordsPerChapter
    bookOutline := ""
    numberOfSubchapters := numberOfSubchapters cfg.wordsPerChapter
    lastGeneratedSubchapter_Full := ""
    lastGeneratedChapter_Full := ""
    currentChapter := 0
    currentSubchapter := 0
    character_bios := cfg.characterBios
    world_notes := cfg.worldNotes }

/-- Record of one accepted outline chunk: its index, chapter range, the
continuity context its prompt was built with, the raw accepted response, and
the bracket-stripped text that was stored. -/
structure ChunkRun where
  chunkIndex : Nat
  start_chap : Nat
  end_chap : Nat
  prevCtx : String
  rawResp : String
  chunkText : String
deriving DecidableEq, Repr

/-- The chunked-outline loop (`final.py` 725-761): one `runAttempts`
execution per chunk; on acceptance the bracket-stripped chunk text is
appended to `full_outline_parts` and becomes `previous_outline_context`; any
chunk failure fails the whole pass. -/
def outlineChunksGo (cfg : SessionCfg) :
    List Nat → String → List CallEvent → Option (List ChunkRun) × List CallEvent
  | [], _, evs => (some [], evs)
  | i :: is, prev, evs =>
    let start_chap := i * CHAPTERS_PER_OUTLINE_CHUNK + 1
    let end_chap := min ((i + 1) * CHAPTERS_PER_OUTLINE_CHUNK) cfg.numberOfChapters
    let prompt := generatePrompt 1 (outlineChunkArgs cfg start_chap end_chap prev)
    let r := runAttempts prompt false 0 1 evs
    match r.1 with
    | .accepted t _ _ =>
      match outlineChunksGo cfg is (removeBrackets t) r.2.1 with
      | (some runs, rem) =>
        (some (⟨i, start_chap, end_chap, prev, t, removeBrackets t⟩ :: runs), rem)
      | (none, rem) => (none, rem)
    | _ => (none, r.2.1)

/-- Result of one outline pass: the assembled outline on success, the chunk
trace, whether the chunked branch ran, and the unconsumed events. -/
structure OutlinePassResult where
  outline : Option String
  chunkRuns : List ChunkRun
  usedChunks : Bool
  rest : List CallEvent
deriving DecidableEq, Repr

/-- One outline-generation pass (`final.py` 713-792, without the user-driven
full regeneration): chunked when the item count exceeds the threshold, else a
single call. -/
def generateOutlinePass (cfg : SessionCfg) (evs : List CallEvent) :
    OutlinePassResult :=
  if OUTLINE_CHUNK_THRESHOLD <
      total_outline_items cfg.numberOfChapters cfg.wordsPerChapter then
    let num_chunks := ceilNatDiv cfg.numberOfChapters CHAPTERS_PER_OUTLINE_CHUNK
    match outlineChunksGo cfg (List.range num_chunks) "" evs with
    | (some runs, rem) =>
      ⟨some (String.intercalate "\n\n" (runs.map (·.chunkText))), runs, true, rem⟩
    | (none, rem) => ⟨none, [], true, rem⟩
  else
    let prompt := generatePrompt 1 (outlineSingleArgs cfg)
    let r := runAttempts prompt false 0 1 evs
    match r.1 with
    | .accepted t _ _ => ⟨some (removeBrackets t), [], false, r.2.1⟩
    | _ => ⟨none, [], false, r.2.1⟩

/-! ### Content orchestration (`final.py` lines 831-949) -/

/-- `min_words_chap = int(target_words_chap * (1 - 0.20))` (`final.py`
903-904) under exact arithmetic. -/
def min_words_chap (cfg : SessionCfg) : Nat :=
  4 * wordsPerChapter_gen cfg.wordsPerChapter / 5

/-- `min_words_sub = int(target_words_sub * (1 - 0.20))` (`final.py`
847-848) under exact arithmetic. -/
def min_words_sub (cfg : SessionCfg) : Nat :=
  4 * wordsPerSubchapter_gen cfg.wordsPerChapter / 5

/-- Prompt arguments of a whole-chapter call (`final.py` 911-919). -/
def chapterPromptArgs (cfg : SessionCfg) (outline : String)
    (currentChapter : Nat) (lastGeneratedChapter_Full : String) : PromptArgs :=
  { bookName := cfg.bookName
    bookGenre := cfg.bookGenre
    numberOfChapters := cfg.numberOfChapters
    bookBrief := cfg.bookBrief
    combinedChapterDetails := cfg.combinedChapterDetails
    wordsPerChapter := wordsPerChapter_gen cfg.wordsPerChapter
    wordsPerSubchapter := 0
    bookOutline := outline
    numberOfSubchapters := 0
    lastGeneratedSubchapter_Full := ""
    lastGeneratedChapter_Full := lastGeneratedChapter_Full
    currentChapter := currentChapter
    currentSubchapter := 0
    character_bios := cfg.characterBios
    world_notes := cfg.worldNotes }

/-- Prompt arguments of a sub-chapter call (`final.py` 858-866). -/
def subchapterPromptArgs (cfg : SessionCfg) (outline : String)
    (currentChapter currentSubChapter : Nat)
    (lastGeneratedSubchapter_Full lastGeneratedChapter_Full : String) :
    PromptArgs :=
  { bookName := cfg.bookName
    bookGenre := cfg.bookGenre
    numberOfChapters := cfg.numberOfChapters
    bookBrief := cfg.bookBrief
    combinedChapterDetails := cfg.combinedChapterDetails
    wordsPerChapter := wordsPerChapter_gen cfg.wordsPerChapter
    wordsPerSubchapter := wordsPerSubchapter_gen cfg.wordsPerChapter
    bookOutline := outline
    numberOfSubchapters := numberOfSubchapters cfg.wordsPerChapter
    lastGeneratedSubchapter_Full := lastGeneratedSubchapter_Full
    lastGeneratedChapter_Full := lastGeneratedChapter_Full
    currentChapter := currentChapter
    currentSubchapter := currentSubChapter
    character_bios := cfg.characterBios
    world_notes := cfg.worldNotes }

/-- One generation unit's run: which unit, the two continuity-context
variables at prompt-build time, and the outcome. -/
structure UnitRun where
  chapter : Nat
  subchapter : Nat
  ctxChap : String
  ctxSub : String
  outcome : UnitOutcome
deriving DecidableEq, Repr

/-- Result of the inner sub-chapter loop of one chapter. -/
structure SubLoopResult where
  runs : List UnitRun
  lastSub : String
  parts : List String
  total : Nat
  rest : List CallEvent
  aborted : Bool
deriving DecidableEq, Repr

/-- The sub-chapter loop (`final.py` 850-897): one `runAttempts` execution
per sub-chapter; acceptance updates `lastGeneratedSubchapter_Full`, appends
to `current_chapter_content_parts` and accumulates the word total; a failed
unit leaves the context untouched and the loop continues; a quota refusal
exits the session (`sys.exit(1)`). -/
def contentSubsGo (cfg : SessionCfg) (outline : String) (c : Nat)
    (lastChap : String) :
    List Nat → String → List String → Nat → List CallEvent → SubLoopResult
  | [], lastSub, parts, total, evs => ⟨[], lastSub, parts, total, evs, false⟩
  | s :: ss, lastSub, parts, total, evs =>
    let prompt :=
      generatePrompt 3 (subchapterPromptArgs cfg outline c s lastSub lastChap)
    let r := runAttempts prompt cfg.regenOnLowWords (min_words_sub cfg) 1 evs
    match r.1 with
    | .accepted t wc a =>
      let res := contentSubsGo cfg outline c lastChap ss t (parts ++ [t])
        (total + wc) r.2.1
      ⟨⟨c, s, lastChap, lastSub, .accepted t wc a⟩ :: res.runs, res.lastSub,
        res.parts, res.total, res.rest, res.aborted⟩
    | .failedMax =>
      let res := contentSubsGo cfg outline c lastChap ss lastSub parts total r.2.1
      ⟨⟨c, s, lastChap, lastSub, .failedMax⟩ :: res.runs, res.lastSub,
        res.parts, res.total, res.rest, res.aborted⟩
    | .quotaAbort =>
      ⟨[⟨c, s, lastChap, lastSub, .quotaAbort⟩], lastSub, parts, total, r.2.1,
        true⟩
    | .starved =>
      ⟨[⟨c, s, lastChap, lastSub, .starved⟩], lastSub, parts, total, r.2.1,
        true⟩

/-- Result of the content phase. -/
structure ContentResult where
  runs : List UnitRun
  lastChap : String
  total : Nat
  rest : List CallEvent
  aborted : Bool
deriving DecidableEq, Repr

/-- The chapter loop (`final.py` 836-949).  With sub-chapters the inner loop
runs with `lastGeneratedSubchapter_Full` reset to `""` (line 841) and
afterwards `lastGeneratedChapter_Full` becomes the blank-line join of the
chapter's accepted parts (line 899); without sub-chapters one whole-chapter
unit runs, acceptance updating `lastGeneratedChapter_Full` (line 943). -/
def contentGo (cfg : SessionCfg) (outline : String) :
    List Nat → String → Nat → List CallEvent → ContentResult
  | [], lastChap, total, evs => ⟨[], lastChap, total, evs, false⟩
  | c :: cs, lastChap, total, evs =>
    if 0 < numberOfSubchapters cfg.wordsPerChapter then
      let sres := contentSubsGo cfg outline c lastChap
        (List.range' 1 (numberOfSubchapters cfg.wordsPerChapter)) "" [] total evs
      if sres.aborted then ⟨sres.runs, lastChap, sres.total, sres.rest, true⟩
      else
        let newChap := String.intercalate "\n\n" sres.parts
        let res := contentGo cfg outline cs newChap sres.total sres.rest
        ⟨sres.runs ++ res.runs, res.lastChap, res.total, res.rest, res.aborted⟩
    else
      let prompt := generatePrompt 2 (chapterPromptArgs cfg outline c lastChap)
      let r := runAttempts prompt cfg.regenOnLowWords (min_words_chap cfg) 1 evs
      match r.1 with
      | .accepted t wc a =>
        let res := contentGo cfg outline cs t (total + wc) r.2.1
        ⟨⟨c, 0, lastChap, "", .accepted t wc a⟩ :: res.runs, res.lastChap,
          res.total, res.rest, res.aborted⟩
      | .failedMax =>
        let res := contentGo cfg outline cs lastChap total r.2.1
        ⟨⟨c, 0, lastChap, "", .failedMax⟩ :: res.runs, res.lastChap, res.total,
          res.rest, res.aborted⟩
      | .quotaAbort => ⟨[⟨c, 0, lastChap, "", .quotaAbort⟩], lastChap, total,
          r.2.1, true⟩
      | .starved => ⟨[⟨c, 0, lastChap, "", .starved⟩], lastChap, total,
          r.2.1, true⟩

/-- The whole content phase (`final.py` 831-834): chapters `1..N` with
`lastGeneratedChapter_Full` reset to `""` before the loop. -/
def runContent (cfg : SessionCfg) (outline : String) (evs : List CallEvent) :
    ContentResult :=
  contentGo cfg outline (List.range' 1 cfg.numberOfChapters) "" 0 evs

/-! ### split_string_into_chunks (`final.py` lines 24-60) -/

/-- `' '.join(words)` at the character level. -/
def spJoin : List (List Char) → List Char
  | [] => []
  | [w] => w
  | w :: ws => w ++ ' ' :: spJoin ws

/-- `'\n'.join(chunks)` at the character level. -/
def nlJoin : List (List Char) → List Char
  | [] => []
  | [c] => c
  | c :: cs => c ++ '\n' :: nlJoin cs

/-- The word loop of `split_string_into_chunks` (`final.py` 42-59), carrying
`chunks`, `current_chunk` and `current_length` exactly as the source does. -/
def chunksAux (chunk_length : Nat) :
    List (List Char) → List (List Char) → List (List Char) → Nat →
      List (List Char)
  | [], chunks, cur, _ => if cur = [] then chunks else chunks ++ [spJoin cur]
  | w :: rest, chunks, cur, curLen =>
    let word_len := w.length
    let potential_len := curLen + word_len + (if 0 < curLen then 1 else 0)
    if chunk_length < potential_len then
      let chunks1 := if cur = [] then chunks else chunks ++ [spJoin cur]
      if chunk_length < word_len then
        chunksAux chunk_length rest (chunks1 ++ [w]) [] 0
      else chunksAux chunk_length rest chunks1 [w] word_len
    else chunksAux chunk_length rest chunks (cur ++ [w]) potential_len

/-- Split a long string into chunks of the given length, breaking at word
boundaries; chunks are joined with newlines (`final.py` 24-60). -/
def split_string_into_chunks (input_string : String) (chunk_length : Nat) :
    String :=
  if input_string = "" then ""
  else
    String.mk
      (nlJoin (chunksAux chunk_length (pySplitChars input_string.data) [] [] 0))

/-- Proof companion of `chunksAux`: the same loop keeping each chunk as its
list of words instead of the joined string. -/
def chunkGroups (chunk_length : Nat) :
    List (List Char) → List (List Char) → Nat → List (List (List Char))
  | [], cur, _ => if cur = [] then [] else [cur]
  | w :: rest, cur, curLen =>
    let word_len := w.length
    let potential_len := curLen + word_len + (if 0 < curLen then 1 else 0)
    if chunk_length < potential_len then
      let flushed : List (List (List Char)) := if cur = [] then [] else [cur]
      if chunk_length < word_len then
        flushed ++ [w] :: chunkGroups chunk_length rest [] 0
      else flushed ++ chunkGroups chunk_length rest [w] word_len
    else chunkGroups chunk_length rest (cur ++ [w]) potential_len

/-! ### Specification-side predicates and concrete scenarios -/

/-- When `getResponse` returns the quota sentinel, according to the code's
actual classification (the amended form of the spec's rule): with an explicit
error payload the effective code (payload code, else HTTP status) is 429 or
the message mentions quota / rate limit case-insensitively; without a parsed
error payload the HTTP status itself is 429. -/
def quotaClassifiedSpec (x : ApiExchange) : Prop :=
  match x with
  | .timeout => False
  | .requestException _ => False
  | .nonJson status => status = 429
  | .jsonBody status (some err) _ =>
    err.code.getD status = 429 ∨
      pyContains (pyLower (err.message.getD "Unknown error structure")) "quota" ∨
      pyContains (pyLower (err.message.getD "Unknown error structure")) "rate limit"
  | .jsonBody status none _ => status = 429

instance (x : ApiExchange) : Decidable (quotaClassifiedSpec x) := by
  unfold quotaClassifiedSpec
  match x with
  | .timeout => exact inferInstanceAs (Decidable False)
  | .requestException _ => exact inferInstanceAs (Decidable False)
  | .nonJson _ => exact inferInstanceAs (Decidable (_ = _))
  | .jsonBody _ (some _) _ => exact inferInstanceAs (Decidable (_ ∨ _ ∨ _))
  | .jsonBody _ none _ => exact inferInstanceAs (Decidable (_ = _))

/-- The success path returns the generated text verbatim, so a generated text
equal to the sentinel itself would be indistinguishable from a quota result;
the classification statements exclude that degenerate collision. -/
def noSentinelCollision (x : ApiExchange) : Prop :=
  match x with
  | .jsonBody _ none cand => cand.text ≠ some QUOTA_EXCEEDED_ERROR_STRING
  | _ => True

/-- Session used by the concrete continuity-context scenario: 2 chapters of
100 words (no sub-chapters), regeneration gate off. -/
def cfgTwoChapters : SessionCfg :=
  { bookName := "B"
    bookGenre := ["Fantasy"]
    numberOfChapters := 2
    bookBrief := "brief"
    combinedChapterDetails := "d"
    wordsPerChapter := 100 }

/-- Events of the concrete scenario: chapter 1 fails all four attempts,
chapter 2 succeeds at once. -/
def evsChapterOneFails : List CallEvent :=
  [⟨"API Error: boom 1", true⟩, ⟨"API Error: boom 2", true⟩,
   ⟨"API Error: boom 3", true⟩, ⟨"API Error: boom 4", true⟩,
   ⟨"hello there world", true⟩]

/-- Session whose outline is generated in chunks: 6 chapters of 3000 words
give 6 sub-chapters, 36 outline items and `ceil(6/3) = 2` chunks. -/
def cfgChunked : SessionCfg :=
  { bookName := "B"
    bookGenre := ["Sci-Fi"]
    numberOfChapters := 6
    bookBrief := "brief"
    combinedChapterDetails := "d"
    wordsPerChapter := 3000 }

/-- Two successful outline-chunk responses (the first still carrying the
bracket artifacts the model sometimes echoes). -/
def evsTwoChunksOk : List CallEvent :=
  [⟨"part <one> text", true⟩, ⟨"part two text", true⟩]

/-- One successful single-call outline response. -/
def evsOneOutlineOk : List CallEvent := [⟨"outline <body>", true⟩]

/-- Prompt arguments whose outline contains no matching marker line. -/
def argsNoMatch : PromptArgs :=
  { bookName := "B"
    bookGenre := ["Fantasy"]
    numberOfChapters := 2
    bookBrief := "brief"
    combinedChapterDetails := "d"
    wordsPerChapter := 180
    wordsPerSubchapter := 0
    bookOutline := "no markers here"
    numberOfSubchapters := 0
    lastGeneratedSubchapter_Full := ""
    lastGeneratedChapter_Full := ""
    currentChapter := 3
    currentSubchapter := 0 }

/-! ## Theorems -/

/-! ### Arithmetic bridges between the executable embedding and the spec's
ceiling / floor formulations -/

/-- Natural ceiling division agrees with the rational ceiling. -/
theorem ceilNatDiv_eq_ceil (a b : Nat) (hb : 0 < b) :
    ceilNatDiv a b = ⌈(a : ℚ) / (b : ℚ)⌉₊ := by
  have hbq : (0 : ℚ) < (b : ℚ) := by exact_mod_cast hb
  apply le_antisymm
  · have h1 : (a : ℚ) ≤ (⌈(a : ℚ) / (b : ℚ)⌉₊ : ℚ) * b :=
      (div_le_iff₀ hbq).1 (Nat.le_ceil _)
    have h2 : a ≤ ⌈(a : ℚ) / (b : ℚ)⌉₊ * b := by exact_mod_cast h1
    rw [mul_comm] at h2
    exact (ceilDiv_le_iff_le_smul hb).2 (by simpa [smul_eq_mul] using h2)
  · apply Nat.ceil_le.2
    have h3 : a ≤ b * ceilNatDiv a b := by
      have := le_smul_ceilDiv hb (b := a)
      simpa [smul_eq_mul] using this
    rw [mul_comm] at h3
    rw [div_le_iff₀ hbq]
    exact_mod_cast h3

/-- Natural floor division agrees with the rational floor. -/
theorem natDiv_eq_floor (a b : Nat) : a / b = ⌊(a : ℚ) / (b : ℚ)⌋₊ :=
  (Rat.natFloor_natCast_div_natCast a b).symm

/-- C1: for every BookSpec, the derived sub-chapter configuration satisfies:
`wordsPerChapter ≤ 1500` gives zero sub-chapters and zero sub-chapter words;
`wordsPerChapter > 1500` gives `max(3, ⌈wordsPerChapter/500⌉)` sub-chapters of
`⌈wordsPerChapter / subchaptersPerChapter⌉` words; and recomputing the derived
configuration from the same inputs yields the same results. -/
theorem C1_derived_subchapter_config (n w : Nat) :
    (w ≤ 1500 → numberOfSubchapters w = 0 ∧ wordsPerSubchapter w = 0) ∧
    (1500 < w →
      numberOfSubchapters w = max 3 ⌈(w : ℚ) / 500⌉₊ ∧
      wordsPerSubchapter w = ⌈(w : ℚ) / (numberOfSubchapters w : ℚ)⌉₊) ∧
    deriveConfig n w = deriveConfig n w := by
  refine ⟨fun hle => ?_, fun hgt => ?_, rfl⟩
  · constructor
    · simp [numberOfSubchapters, SUBCHAPTER_THRESHOLD]; omega
    · simp [wordsPerSubchapter, SUBCHAPTER_THRESHOLD]; omega
  · have hn : numberOfSubchapters w =
        max 3 (ceilNatDiv w TARGET_SUBCHAPTER_WORDS) := by
      simp [numberOfSubchapters, SUBCHAPTER_THRESHOLD]
      omega
    have hpos : 0 < numberOfSubchapters w := by
      rw [hn]; omega
    constructor
    · have hc : ceilNatDiv w TARGET_SUBCHAPTER_WORDS = ⌈(w : ℚ) / 500⌉₊ := by
        rw [show TARGET_SUBCHAPTER_WORDS = 500 from rfl,
          ceilNatDiv_eq_ceil w 500 (by norm_num)]
        norm_num
      rw [hn, hc]
    · rw [wordsPerSubchapter, if_pos (by simpa [SUBCHAPTER_THRESHOLD] using hgt),
        ceilNatDiv_eq_ceil w (numberOfSubchapters w) hpos]

/-- Witness for C1 at `wordsPerChapter = 3000` and `= 100`. -/
theorem C1_witness :
    (1500 < 3000 ∧
      (numberOfSubchapters 3000 = max 3 ⌈(3000 : ℚ) / 500⌉₊ ∧
        wordsPerSubchapter 3000 = ⌈(3000 : ℚ) / (numberOfSubchapters 3000 : ℚ)⌉₊)) ∧
    (100 ≤ 1500 ∧ (numberOfSubchapters 100 = 0 ∧ wordsPerSubchapter 100 = 0)) :=
  ⟨⟨by norm_num, (C1_derived_subchapter_config 1 3000).2.1 (by norm_num)⟩,
   ⟨by norm_num, (C1_derived_subchapter_config 1 100).1 (by norm_num)⟩⟩

/-! ### removeBrackets and the outline orchestrator's use of it -/

theorem removeBrackets_data (s : String) :
    (removeBrackets s).data =
      (s.data.filter (fun d => d ≠ '>')).filter (fun d => d ≠ '<') := rfl

/-- Helper: both bracket filters fix the bracket-stripped list. -/
theorem removeBrackets_filter_fixed (d : List Char) :
    ((d.filter (fun c => c ≠ '>')).filter (fun c => c ≠ '<')).filter
        (fun c => c ≠ '>') =
      (d.filter (fun c => c ≠ '>')).filter (fun c => c ≠ '<') := by
  rw [List.filter_eq_self]
  intro a ha
  have h1 := (List.mem_filter.1 ha).1
  exact (List.mem_filter.1 h1).2

theorem strMk_data (s : String) : String.mk s.data = s := by cases s; rfl

theorem removeBrackets_idem_aux (s : String) :
    removeBrackets (removeBrackets s) = removeBrackets s := by
  have h : (removeBrackets (removeBrackets s)).data = (removeBrackets s).data := by
    rw [removeBrackets_data, removeBrackets_data s, removeBrackets_filter_fixed]
    rw [List.filter_eq_self]
    intro a ha
    exact (List.mem_filter.1 ha).2
  rw [← strMk_data (removeBrackets (removeBrackets s)), h, strMk_data]

/-- Induction invariant of the chunked-outline loop: on success the recorded
chunk indices are the requested ones, each chunk's chapter range follows its
index, the stored text is the bracket-stripped raw response, the first chunk's
continuity context is the incoming one, and each later chunk's continuity
context is the previous chunk's stored text. -/
theorem outlineChunksGo_spec (cfg : SessionCfg) :
    ∀ (is : List Nat) (prev : String) (evs : List CallEvent)
      (runs : List ChunkRun) (rem : List CallEvent),
      outlineChunksGo cfg is prev evs = (some runs, rem) →
      runs.map (·.chunkIndex) = is ∧
      (∀ run ∈ runs,
        run.start_chap = run.chunkIndex * CHAPTERS_PER_OUTLINE_CHUNK + 1 ∧
        run.end_chap =
          min ((run.chunkIndex + 1) * CHAPTERS_PER_OUTLINE_CHUNK)
            cfg.numberOfChapters ∧
        run.chunkText = removeBrackets run.rawResp) ∧
      (∀ h : runs ≠ [], (runs.head h).prevCtx = prev) ∧
      List.Chain' (fun a b => b.prevCtx = a.chunkText) runs := by
  intro is
  induction is with
  | nil =>
    intro prev evs runs rem h
    rw [outlineChunksGo] at h
    obtain ⟨h1, h2⟩ := Prod.mk.injEq .. ▸ h
    cases h1
    simp_all
  | cons i is ih =>
    intro prev evs runs rem h
    rw [outlineChunksGo] at h
    split at h
    · rename_i t wc a heq
      split at h
      · rename_i runs' rem' hrec
        obtain ⟨h1, h2⟩ := Prod.mk.injEq .. ▸ h
        obtain ⟨hmap, hmem, hhead, hchain⟩ := ih _ _ _ _ hrec
        cases Option.some.injEq .. ▸ h1
        refine ⟨?_, ?_, ?_, ?_⟩
        · simp [hmap]
        · intro run hrun
          rcases List.mem_cons.1 hrun with rfl | hmem'
          · exact ⟨rfl, rfl, rfl⟩
          · exact hmem run hmem'
        · intro _
          rfl
        · rw [List.chain'_cons']
          refine ⟨?_, hchain⟩
          intro b hb
          rcases hb' : runs'.head? with _ | ⟨b'⟩
          · rw [hb'] at hb; cases hb
          · rw [hb'] at hb
            cases hb
            have hne : runs' ≠ [] := by
              intro hnil; rw [hnil] at hb'; cases hb'
            have := hhead hne
            rw [List.head?_eq_head hne] at hb'
            cases hb'
            exact this
      · cases h
    · cases h

/-- C9: removeBrackets removes every `<` and `>` and is idempotent, and it is
applied to every accepted outline fragment (each outline chunk, and the
single-call outline) before the fragment is stored or concatenated. -/
theorem C9_removeBrackets_stripping :
    (∀ s : String, removeBrackets (removeBrackets s) = removeBrackets s) ∧
    (∀ s : String, ∀ c ∈ (removeBrackets s).data, c ≠ '<' ∧ c ≠ '>') ∧
    (∀ (cfg : SessionCfg) (evs : List CallEvent),
      ∀ run ∈ (generateOutlinePass cfg evs).chunkRuns,
        run.chunkText = removeBrackets run.rawResp) ∧
    (∀ (cfg : SessionCfg) (evs : List CallEvent) (t : String) (wc a : Nat),
      total_outline_items cfg.numberOfChapters cfg.wordsPerChapter ≤
        OUTLINE_CHUNK_THRESHOLD →
      (runAttempts (generatePrompt 1 (outlineSingleArgs cfg)) false 0 1 evs).1 =
        .accepted t wc a →
      (generateOutlinePass cfg evs).outline = some (removeBrackets t)) := by
  refine ⟨removeBrackets_idem_aux, ?_, ?_, ?_⟩
  · intro s c hc
    rw [removeBrackets_data] at hc
    have h2 := List.mem_filter.1 hc
    have h1 := List.mem_filter.1 h2.1
    constructor
    · simpa using h2.2
    · simpa using h1.2
  · intro cfg evs run hrun
    simp only [generateOutlinePass] at hrun
    split at hrun
    · split at hrun
      · rename_i runs rem hrec
        obtain ⟨_, hmem, _, _⟩ := outlineChunksGo_spec cfg _ _ _ _ _ hrec
        exact (hmem run hrun).2.2
      · exact absurd hrun (List.not_mem_nil run)
    · split at hrun
      · exact absurd hrun (List.not_mem_nil run)
      · exact absurd hrun (List.not_mem_nil run)
  · intro cfg evs t wc a hle hacc
    simp only [generateOutlinePass]
    rw [if_neg (not_lt.2 hle), hacc]

/-- Witness for C9: a chunked run whose stored chunk text is the
bracket-stripped raw response, and a single-call outline stored
bracket-stripped. -/
theorem C9_witness :
    (ChunkRun.mk 0 1 3 "" "part <one> text" "part one text").chunkText =
      removeBrackets
        (ChunkRun.mk 0 1 3 "" "part <one> text" "part one text").rawResp ∧
    (generateOutlinePass cfgTwoChapters evsOneOutlineOk).outline =
      some (removeBrackets "outline <body>") :=
  ⟨C9_removeBrackets_stripping.2.2.1 cfgChunked evsTwoChunksOk _ (by decide),
   C9_removeBrackets_stripping.2.2.2 cfgTwoChapters evsOneOutlineOk
     "outline <body>" 2 1 (by decide) (by decide)⟩

/-! ### getResponse classification (C8) -/

theorem quota_head :
    QUOTA_EXCEEDED_ERROR_STRING.data = 'Q' :: "UOTA_EXCEEDED".data := rfl

/-- A string whose first character is not `Q` is not the quota sentinel. -/
theorem ne_quota_of_head {s : String} {c : Char} {l : List Char}
    (h : s.data = c :: l) (hc : c ≠ 'Q') : s ≠ QUOTA_EXCEEDED_ERROR_STRING := by
  intro he
  rw [he, quota_head] at h
  injection h with h1 h2
  exact hc h1.symm

theorem head_append (a b : String) (c : Char) (l : List Char)
    (h : a.data = c :: l) : (a ++ b).data = c :: (l ++ b.data) := by
  rw [strData_append, h, List.cons_append]

/-- C8 (amended): `getResponse` returns the quota sentinel iff the exchange is
quota-classified — with an explicit error payload, its effective code (payload
code, else HTTP status) is 429 or its message mentions quota / rate limit
case-insensitively; without a parsed error payload the HTTP status itself is
429 — and any other explicit error payload yields an error string carrying
that payload's message.  (The degenerate case of a generated text equal to
the sentinel itself is excluded.) -/
theorem C8_quota_classification (x : ApiExchange) (hx : noSentinelCollision x) :
    (getResponse x = QUOTA_EXCEEDED_ERROR_STRING ↔ quotaClassifiedSpec x) ∧
    (∀ (status : Nat) (err : ApiErrorPayload) (cand : ApiCandidate),
      x = .jsonBody status (some err) cand → ¬ quotaClassifiedSpec x →
      getResponse x =
        "API Error: " ++ toString (err.code.getD (status : Int)) ++ " - " ++
          err.message.getD "Unknown error structure") := by
  match x with
  | .timeout =>
    refine ⟨?_, ?_⟩
    · simp only [getResponse, quotaClassifiedSpec]
      exact ⟨fun h => absurd h (by decide), fun h => absurd h not_false⟩
    · intro _ _ _ hx' _; cases hx'
  | .requestException msg =>
    refine ⟨?_, ?_⟩
    · simp only [getResponse, quotaClassifiedSpec]
      refine ⟨fun h => ?_, fun h => absurd h not_false⟩
      exact absurd h (ne_quota_of_head
        (head_append "Request failed: " msg 'R' "equest failed: ".data rfl)
        (by decide))
    · intro _ _ _ hx' _; cases hx'
  | .nonJson status =>
    refine ⟨?_, ?_⟩
    · simp only [getResponse, quotaClassifiedSpec]
      by_cases h429 : status = 429
      · simp [h429]
      · rw [if_neg h429]
        refine ⟨fun h => ?_, fun h => absurd h h429⟩
        exact absurd h (ne_quota_of_head
          (head_append ("API Error: " ++ toString status)
            " - Non-JSON Response" 'A'
            ("PI Error: ".data ++ (toString status).data)
            (head_append "API Error: " (toString status) 'A' "PI Error: ".data
              rfl))
          (by decide))
    · intro _ _ _ hx' _; cases hx'
  | .jsonBody status none cand =>
    refine ⟨?_, ?_⟩
    · simp only [getResponse, quotaClassifiedSpec]
      by_cases h200 : status = 200
      · rw [if_pos h200]
        subst h200
        have hne : ¬ (200 : Nat) = 429 := by decide
        refine ⟨fun h => ?_, fun h => absurd h hne⟩
        split at h
        · split at h
          · exact absurd h (ne_quota_of_head
              (head_append _ _ 'A'
                ("PI Warning: Generation finished unexpectedly (".data ++
                  (cand.finishReason.getD "UNKNOWN").data)
                (head_append
                  "API Warning: Generation finished unexpectedly ("
                  (cand.finishReason.getD "UNKNOWN") 'A'
                  "PI Warning: Generation finished unexpectedly (".data rfl))
              (by decide))
          · exact absurd h (ne_quota_of_head
              (head_append _ _ 'A'
                ("PI Error: Generation stopped (".data ++
                  (cand.finishReason.getD "UNKNOWN").data)
                (head_append "API Error: Generation stopped ("
                  (cand.finishReason.getD "UNKNOWN") 'A'
                  "PI Error: Generation stopped (".data rfl))
              (by decide))
        · rename_i htext
          split at h
          · rename_i message hmsg
            exact absurd (hmsg ▸ congrArg some h) hx
          · exact absurd h (by decide)
      · rw [if_neg h200]
        by_cases h429 : status = 429
        · simp [h429]
        · rw [if_neg h429]
          refine ⟨fun h => ?_, fun h => absurd h h429⟩
          exact absurd h (ne_quota_of_head
            (head_append "API Error: Status Code " (toString status) 'A'
              "PI Error: Status Code ".data rfl)
            (by decide))
    · intro _ _ _ hx' _; cases hx'
  | .jsonBody status (some err) cand =>
    constructor
    · simp only [getResponse, quotaClassifiedSpec]
      split
    -- then-branch: the quota condition held
      · rename_i hcond
        exact ⟨fun _ => hcond, fun _ => rfl⟩
      · rename_i hcond
        refine ⟨fun h => ?_, fun h => absurd h hcond⟩
        exact absurd h (ne_quota_of_head
          (head_append _ (err.message.getD "Unknown error structure") 'A'
            (("PI Error: ".data ++ (toString (err.code.getD (status : Int))).data)
              ++ " - ".data)
            (head_append _ " - " 'A'
              ("PI Error: ".data ++ (toString (err.code.getD (status : Int))).data)
              (head_append "API Error: " (toString (err.code.getD (status : Int)))
                'A' "PI Error: ".data rfl)))
          (by decide))
    · intro status' err' cand' hx' hnq
      cases hx'
      simp only [getResponse]
      rw [if_neg]
      intro hcond
      exact hnq hcond

/-- Counterexample to C8 as stated: an HTTP 429 response carrying an explicit
error payload with code 400 and no quota wording is returned as a plain API
error, not as the quota marker, although the HTTP status is the rate-limit
status 429. -/
theorem C8_counterexample :
    getResponse
        (.jsonBody 429 (some ⟨some 400, some "Bad Request"⟩) ⟨none, none⟩) =
      "API Error: 400 - Bad Request" ∧
    getResponse
        (.jsonBody 429 (some ⟨some 400, some "Bad Request"⟩) ⟨none, none⟩) ≠
      QUOTA_EXCEEDED_ERROR_STRING := by
  constructor
  · decide
  · decide

/-- Witness for C8 at concrete exchanges: a quota-worded payload is
classified as quota, and a non-quota payload's message is carried through. -/
theorem C8_witness :
    (getResponse
        (.jsonBody 200 (some ⟨none, some "Daily Quota exceeded"⟩) ⟨none, none⟩) =
          QUOTA_EXCEEDED_ERROR_STRING ↔
      quotaClassifiedSpec
        (.jsonBody 200 (some ⟨none, some "Daily Quota exceeded"⟩) ⟨none, none⟩)) ∧
    getResponse
        (.jsonBody 500 (some ⟨some 500, some "server broke"⟩) ⟨none, none⟩) =
      "API Error: " ++ toString ((500 : Nat) : Int) ++ " - " ++ "server broke" :=
  ⟨(C8_quota_classification
      (.jsonBody 200 (some ⟨none, some "Daily Quota exceeded"⟩) ⟨none, none⟩)
      trivial).1,
   (C8_quota_classification
      (.jsonBody 500 (some ⟨some 500, some "server broke"⟩) ⟨none, none⟩)
      trivial).2 500 ⟨some 500, some "server broke"⟩ ⟨none, none⟩ rfl
      (by decide)⟩

/-! ### The attempt cap (C2) and quota round-trips (C5) -/

/-- Starting at attempt `a`, the loop consumes at most `MAX + 1 - a`
attempts. -/
theorem runAttempts_attempts_le (p : String) (g : Bool) (m : Nat) :
    ∀ (evs : List CallEvent) (a : Nat),
      attemptsUsed (runAttempts p g m a evs).2.2 ≤
        MAX_GENERATION_ATTEMPTS + 1 - a := by
  intro evs
  induction evs with
  | nil =>
    intro a
    rw [runAttempts]
    split <;> simp [attemptsUsed]
  | cons e rest ih =>
    intro a
    simp only [runAttempts]
    split
    · simp [attemptsUsed]
    · rename_i hcap
      split
      · rename_i hq
        split
        · simp only [attemptsUsed]
          rw [List.filter_cons_of_neg (by simp [hq])]
          exact ih a
        · simp only [attemptsUsed]
          rw [List.filter_cons_of_neg (by simp [hq])]
          simp
      · rename_i hq
        split
        · simp only [attemptsUsed]
          rw [List.filter_cons_of_pos (by simp [hq])]
          have := ih (a + 1)
          simp only [attemptsUsed] at this
          simp only [List.length_cons]
          omega
        · split
          · simp only [attemptsUsed]
            rw [List.filter_cons_of_pos (by simp [hq])]
            have := ih (a + 1)
            simp only [attemptsUsed] at this
            simp only [List.length_cons]
            omega
          · simp only [attemptsUsed]
            rw [List.filter_cons_of_pos (by simp [hq])]
            simp
            omega

/-- On terminal failure the loop consumed exactly the remaining attempt
budget. -/
theorem runAttempts_failed_count (p : String) (g : Bool) (m : Nat) :
    ∀ (evs : List CallEvent) (a : Nat),
      a ≤ MAX_GENERATION_ATTEMPTS + 1 →
      (runAttempts p g m a evs).1 = .failedMax →
      attemptsUsed (runAttempts p g m a evs).2.2 =
        MAX_GENERATION_ATTEMPTS + 1 - a := by
  intro evs
  induction evs with
  | nil =>
    intro a ha h
    rw [runAttempts] at h ⊢
    split at h
    · rename_i hcap
      rw [if_pos hcap]
      simp [attemptsUsed]
      omega
    · cases h
  | cons e rest ih =>
    intro a ha h
    simp only [runAttempts] at h ⊢
    split at h
    · rename_i hcap
      rw [if_pos hcap]
      simp [attemptsUsed]
      omega
    · rename_i hcap
      split at h
      · rename_i hq
        split at h
        · rw [if_neg hcap, if_pos hq, if_pos (by assumption)]
          simp only [attemptsUsed]
          rw [List.filter_cons_of_neg (by simp [hq])]
          exact ih a ha h
        · cases h
      · rename_i hq
        split at h
        · rw [if_neg hcap, if_neg hq, if_pos (by assumption)]
          simp only [attemptsUsed]
          rw [List.filter_cons_of_pos (by simp [hq])]
          have := ih (a + 1) (by omega) h
          simp only [attemptsUsed] at this
          simp only [List.length_cons]
          omega
        · rename_i hisErr
          split at h
          · rw [if_neg hcap, if_neg hq, if_neg hisErr, if_pos (by assumption)]
            simp only [attemptsUsed]
            rw [List.filter_cons_of_pos (by simp [hq])]
            have := ih (a + 1) (by omega) h
            simp only [attemptsUsed] at this
            simp only [List.length_cons]
            omega
          · cases h

/-- The unconsumed remainder is a suffix of the supplied events. -/
theorem runAttempts_consumed (p : String) (g : Bool) (m : Nat) :
    ∀ (evs : List CallEvent) (a : Nat),
      ∃ consumed, evs = consumed ++ (runAttempts p g m a evs).2.1 := by
  intro evs
  induction evs with
  | nil =>
    intro a
    rw [runAttempts]
    split <;> exact ⟨[], rfl⟩
  | cons e rest ih =>
    intro a
    simp only [runAttempts]
    split
    · exact ⟨[], rfl⟩
    · split
      · split
        · obtain ⟨c, hc⟩ := ih a
          exact ⟨e :: c, by rw [List.cons_append, ← hc]⟩
        · exact ⟨[e], rfl⟩
      · split
        · obtain ⟨c, hc⟩ := ih (a + 1)
          exact ⟨e :: c, by rw [List.cons_append, ← hc]⟩
        · split
          · obtain ⟨c, hc⟩ := ih (a + 1)
            exact ⟨e :: c, by rw [List.cons_append, ← hc]⟩
          · exact ⟨[e], rfl⟩

/-- C2: for every generation unit the retry loop performs at most 4 attempts;
when it reports terminal failure it performed exactly 4 attempts and the rest
of the event stream is untouched. -/
theorem C2_attempt_cap (p : String) (g : Bool) (m : Nat)
    (evs : List CallEvent) (o : UnitOutcome) (rem : List CallEvent)
    (tr : List CallRecord) (h : runAttempts p g m 1 evs = (o, rem, tr)) :
    attemptsUsed tr ≤ MAX_GENERATION_ATTEMPTS ∧
    (o = .failedMax →
      attemptsUsed tr = MAX_GENERATION_ATTEMPTS ∧
        ∃ consumed, evs = consumed ++ rem) := by
  have h1 := runAttempts_attempts_le p g m evs 1
  have h3 := runAttempts_consumed p g m evs 1
  rw [h] at h1 h3
  refine ⟨by simpa using h1, fun ho => ⟨?_, h3⟩⟩
  have h2 := runAttempts_failed_count p g m evs 1 (by norm_num)
  rw [h] at h2
  simpa using h2 ho

/-- Witness for C2: four consecutive errors exhaust the cap and leave the
fifth event unconsumed. -/
theorem C2_witness :
    attemptsUsed
        [⟨1, "p", "API Error: boom 1"⟩, ⟨2, "p", "API Error: boom 2"⟩,
         ⟨3, "p", "API Error: boom 3"⟩, ⟨4, "p", "API Error: boom 4"⟩] ≤
      MAX_GENERATION_ATTEMPTS ∧
    (UnitOutcome.failedMax = .failedMax →
      attemptsUsed
          [⟨1, "p", "API Error: boom 1"⟩, ⟨2, "p", "API Error: boom 2"⟩,
           ⟨3, "p", "API Error: boom 3"⟩, ⟨4, "p", "API Error: boom 4"⟩] =
        MAX_GENERATION_ATTEMPTS ∧
        ∃ consumed,
          evsChapterOneFails = consumed ++ [⟨"hello there world", true⟩]) :=
  C2_attempt_cap "p" false 0 evsChapterOneFails .failedMax
    [⟨"hello there world", true⟩]
    [⟨1, "p", "API Error: boom 1"⟩, ⟨2, "p", "API Error: boom 2"⟩,
     ⟨3, "p", "API Error: boom 3"⟩, ⟨4, "p", "API Error: boom 4"⟩]
    (by decide)

/-- Every call trace starts at the loop's entry attempt with the entry
prompt. -/
theorem runAttempts_head_record (p : String) (g : Bool) (m : Nat) :
    ∀ (evs : List CallEvent) (a : Nat) (r : CallRecord),
      (runAttempts p g m a evs).2.2.get? 0 = some r →
      r.attempt = a ∧ r.prompt = p := by
  intro evs
  induction evs with
  | nil =>
    intro a r h
    rw [runAttempts] at h
    split at h <;> cases h
  | cons e rest ih =>
    intro a r h
    simp only [runAttempts] at h
    split at h
    · cases h
    · split at h
      · split at h
        · rw [List.get?_cons_zero] at h
          cases h; exact ⟨rfl, rfl⟩
        · rw [List.get?_cons_zero] at h
          cases h; exact ⟨rfl, rfl⟩
      · split at h
        · rw [List.get?_cons_zero] at h
          cases h; exact ⟨rfl, rfl⟩
        · split at h
          · rw [List.get?_cons_zero] at h
            cases h; exact ⟨rfl, rfl⟩
          · rw [List.get?_cons_zero] at h
            cases h; exact ⟨rfl, rfl⟩

/-- After a quota round-trip the next performed call has the same attempt
number and the same prompt. -/
theorem runAttempts_quota_step (p : String) (g : Bool) (m : Nat) :
    ∀ (evs : List CallEvent) (a i : Nat) (r₁ r₂ : CallRecord),
      (runAttempts p g m a evs).2.2.get? i = some r₁ →
      (runAttempts p g m a evs).2.2.get? (i + 1) = some r₂ →
      r₁.resp = QUOTA_EXCEEDED_ERROR_STRING →
      r₂.prompt = r₁.prompt ∧ r₂.attempt = r₁.attempt := by
  intro evs
  induction evs with
  | nil =>
    intro a i r₁ r₂ h1 h2 hq
    rw [runAttempts] at h1
    split at h1 <;> simp at h1
  | cons e rest ih =>
    intro a i r₁ r₂ h1 h2 hq
    simp only [runAttempts] at h1 h2
    by_cases hcap : MAX_GENERATION_ATTEMPTS < a
    · rw [if_pos hcap] at h1
      simp at h1
    · rw [if_neg hcap] at h1 h2
      by_cases hqr : e.resp = QUOTA_EXCEEDED_ERROR_STRING
      · rw [if_pos hqr] at h1 h2
        by_cases hok : e.quotaOk = true
        · rw [if_pos hok] at h1 h2
          cases i with
          | zero =>
            rw [List.get?_cons_zero] at h1
            cases h1
            rw [List.get?_cons_succ] at h2
            have := runAttempts_head_record p g m rest a r₂ h2
            exact ⟨this.2.symm ▸ rfl, this.1.symm ▸ rfl⟩
          | succ j =>
            rw [List.get?_cons_succ] at h1 h2
            exact ih a j r₁ r₂ h1 h2 hq
        · rw [if_neg hok] at h1 h2
          cases i with
          | zero =>
            rw [List.get?_cons_succ] at h2
            simp at h2
          | succ j =>
            rw [List.get?_cons_succ] at h1
            simp at h1
      · rw [if_neg hqr] at h1 h2
        by_cases herr : isErrorResponse e.resp = true
        · rw [if_pos herr] at h1 h2
          cases i with
          | zero =>
            rw [List.get?_cons_zero] at h1
            cases h1
            exact absurd hq hqr
          | succ j =>
            rw [List.get?_cons_succ] at h1 h2
            exact ih (a + 1) j r₁ r₂ h1 h2 hq
        · rw [if_neg herr] at h1 h2
          by_cases hgate :
              (g && decide (pyWordCount e.resp < m) &&
                decide (a < MAX_GENERATION_ATTEMPTS)) = true
          · rw [if_pos hgate] at h1 h2
            cases i with
            | zero =>
              rw [List.get?_cons_zero] at h1
              cases h1
              exact absurd hq hqr
            | succ j =>
              rw [List.get?_cons_succ] at h1 h2
              exact ih (a + 1) j r₁ r₂ h1 h2 hq
          · rw [if_neg hgate] at h1 h2
            cases i with
            | zero =>
              rw [List.get?_cons_succ] at h2
              simp at h2
            | succ j =>
              rw [List.get?_cons_succ] at h1
              simp at h1

/-- C5: a quota round-trip with a fresh credential retries with the same
prompt and an unchanged attempt counter; a refused quota prompt terminates
the unit immediately, leaving the remaining events unconsumed and consuming
no attempt (the sole recorded call is the quota one). -/
theorem C5_quota_roundtrip (p : String) (g : Bool) (m : Nat) :
    (∀ (evs : List CallEvent) (a i : Nat) (r₁ r₂ : CallRecord),
      (runAttempts p g m a evs).2.2.get? i = some r₁ →
      (runAttempts p g m a evs).2.2.get? (i + 1) = some r₂ →
      r₁.resp = QUOTA_EXCEEDED_ERROR_STRING →
      r₂.prompt = r₁.prompt ∧ r₂.attempt = r₁.attempt) ∧
    (∀ (e : CallEvent) (rest : List CallEvent) (a : Nat),
      a ≤ MAX_GENERATION_ATTEMPTS →
      e.resp = QUOTA_EXCEEDED_ERROR_STRING → e.quotaOk = false →
      runAttempts p g m a (e :: rest) =
        (.quotaAbort, rest, [⟨a, p, e.resp⟩]) ∧
      attemptsUsed [(⟨a, p, e.resp⟩ : CallRecord)] = 0) := by
  refine ⟨runAttempts_quota_step p g m, ?_⟩
  intro e rest a ha hq hok
  constructor
  · simp only [runAttempts]
    rw [if_neg (by omega), if_pos hq, if_neg (by simp [hok])]
  · simp [attemptsUsed, hq]

/-- Witness for C5: a recovered quota call retries at the same attempt with
the same prompt, and a refused one aborts at once. -/
theorem C5_witness :
    ((CallRecord.mk 1 "p" "hello good world").prompt =
        (CallRecord.mk 1 "p" QUOTA_EXCEEDED_ERROR_STRING).prompt ∧
      (CallRecord.mk 1 "p" "hello good world").attempt =
        (CallRecord.mk 1 "p" QUOTA_EXCEEDED_ERROR_STRING).attempt) ∧
    (runAttempts "p" false 0 2 [⟨QUOTA_EXCEEDED_ERROR_STRING, false⟩] =
        (.quotaAbort, [], [⟨2, "p", QUOTA_EXCEEDED_ERROR_STRING⟩]) ∧
      attemptsUsed [(⟨2, "p", QUOTA_EXCEEDED_ERROR_STRING⟩ : CallRecord)] = 0) :=
  ⟨(C5_quota_roundtrip "p" false 0).1
      [⟨QUOTA_EXCEEDED_ERROR_STRING, true⟩, ⟨"hello good world", true⟩] 1 0
      ⟨1, "p", QUOTA_EXCEEDED_ERROR_STRING⟩ ⟨1, "p", "hello good world"⟩
      (by decide) (by decide) rfl,
   (C5_quota_roundtrip "p" false 0).2 ⟨QUOTA_EXCEEDED_ERROR_STRING, false⟩ []
      2 (by decide) rfl rfl⟩

/-! ### Prompt-piece containment helpers -/

theorem strAppend_empty (s : String) : s ++ "" = s := by
  cases s
  show String.mk (_ ++ ("" : String).data) = _
  rw [show ("" : String).data = [] from rfl, List.append_nil]

theorem containsSegment_of_pieces (ps pre mid post : List String)
    (h : ps = pre ++ (mid ++ post)) :
    containsSegment (strJoin ps) (strJoin mid) := by
  subst h
  rw [strJoin_append, strJoin_append]
  exact ⟨strJoin pre, strJoin post, rfl⟩

theorem containsSegment_of_piece (ps pre : List String) (x : String)
    (post : List String) (h : ps = pre ++ (x :: post)) :
    containsSegment (strJoin ps) x := by
  subst h
  rw [strJoin_append]
  exact ⟨strJoin pre, strJoin post, rfl⟩

theorem strJoin_triple (x y z : String) : strJoin [x, y, z] = x ++ (y ++ z) := by
  show x ++ (y ++ (z ++ "")) = x ++ (y ++ z)
  rw [strAppend_empty]

/-- The chapter / sub-chapter prompt (options 2 and 3) is the join of its
pieces. -/
theorem generatePrompt_content (option : Nat) (args : PromptArgs)
    (h : option = 2 ∨ option = 3) :
    generatePrompt option args = strJoin (contentPromptPieces option args) := by
  rcases h with rfl | rfl <;> rfl

/-- The 85% minimum sentence of the content prompt, with its computed value,
is embedded verbatim in every chapter / sub-chapter prompt. -/
theorem contentPrompt_contains_min_words (option : Nat) (args : PromptArgs) :
    containsSegment (strJoin (contentPromptPieces option args))
      ("Minimum should be around " ++
        (toString (minTargetWords
          (if option = 2 then args.wordsPerChapter else args.wordsPerSubchapter))
          ++ " words.")) := by
  have hmid : ((contentPromptPieces option args).drop 13).take 3 =
      ["Minimum should be around ",
       toString (minTargetWords
         (if option = 2 then args.wordsPerChapter else args.wordsPerSubchapter)),
       " words."] := rfl
  have hsplit : contentPromptPieces option args =
      (contentPromptPieces option args).take 13 ++
        (((contentPromptPieces option args).drop 13).take 3 ++
          (contentPromptPieces option args).drop 16) := rfl
  have hseg := containsSegment_of_pieces _ _ _ _ hsplit
  rw [hmid, strJoin_triple] at hseg
  exact hseg

/-- The relevant-outline value is embedded verbatim in every chapter /
sub-chapter prompt. -/
theorem contentPrompt_contains_relevant_outline (option : Nat)
    (args : PromptArgs) :
    containsSegment (strJoin (contentPromptPieces option args))
      (relevantOutlineFor option args) := by
  apply containsSegment_of_piece _ ((contentPromptPieces option args).take 45)
    _ ((contentPromptPieces option args).drop 46)
  conv_lhs =>
    rw [← List.take_append_drop 45 (contentPromptPieces option args)]
  rfl

/-- The continuity-context snippet is embedded verbatim in every chapter /
sub-chapter prompt. -/
theorem contentPrompt_contains_context (option : Nat) (args : PromptArgs) :
    containsSegment (strJoin (contentPromptPieces option args))
      (if option = 2 then prevChapContext args.lastGeneratedChapter_Full
        else prevSubContext args.lastGeneratedSubchapter_Full) := by
  apply containsSegment_of_piece _ ((contentPromptPieces option args).take 55)
    _ ((contentPromptPieces option args).drop 56)
  conv_lhs =>
    rw [← List.take_append_drop 55 (contentPromptPieces option args)]
  rfl

/-! ### The low-word regeneration gate (C7) -/

/-- A division of natural multiples agrees with the rational-ratio floor. -/
theorem natDiv_mul_eq_floor (k d w : Nat) :
    k * w / d = ⌊((k : ℚ) / (d : ℚ)) * (w : ℚ)⌋₊ := by
  rw [natDiv_eq_floor (k * w) d]
  congr 1
  push_cast
  ring

/-- With the gate disabled, a successful response is accepted at any attempt
regardless of its word count. -/
theorem runAttempts_gate_disabled (p : String) (m a : Nat) (e : CallEvent)
    (rest : List CallEvent) (ha : a ≤ MAX_GENERATION_ATTEMPTS)
    (hq : e.resp ≠ QUOTA_EXCEEDED_ERROR_STRING)
    (he : isErrorResponse e.resp = false) :
    runAttempts p false m a (e :: rest) =
      (.accepted e.resp (pyWordCount e.resp) a, rest, [⟨a, p, e.resp⟩]) := by
  simp only [runAttempts]
  rw [if_neg (by omega), if_neg hq, if_neg (by simp [he]), if_neg (by simp)]

/-- With the gate enabled, a successful but low-word response before the last
attempt is discarded and the loop retries at the next attempt. -/
theorem runAttempts_gate_retry (p : String) (m a : Nat) (e : CallEvent)
    (rest : List CallEvent) (hq : e.resp ≠ QUOTA_EXCEEDED_ERROR_STRING)
    (he : isErrorResponse e.resp = false)
    (hlow : pyWordCount e.resp < m) (halt : a < MAX_GENERATION_ATTEMPTS) :
    runAttempts p true m a (e :: rest) =
      ((runAttempts p true m (a + 1) rest).1,
        (runAttempts p true m (a + 1) rest).2.1,
        ⟨a, p, e.resp⟩ :: (runAttempts p true m (a + 1) rest).2.2) := by
  simp only [runAttempts]
  rw [if_neg (by omega), if_neg hq, if_neg (by simp [he]),
    if_pos (by simp [hlow, halt])]

/-- With the gate enabled, a low-word response on the final attempt is kept. -/
theorem runAttempts_gate_keep (p : String) (m : Nat) (e : CallEvent)
    (rest : List CallEvent) (hq : e.resp ≠ QUOTA_EXCEEDED_ERROR_STRING)
    (he : isErrorResponse e.resp = false) :
    runAttempts p true m MAX_GENERATION_ATTEMPTS (e :: rest) =
      (.accepted e.resp (pyWordCount e.resp) MAX_GENERATION_ATTEMPTS, rest,
        [⟨MAX_GENERATION_ATTEMPTS, p, e.resp⟩]) := by
  simp only [runAttempts]
  rw [if_neg (by omega), if_neg hq, if_neg (by simp [he]), if_neg (by simp)]

/-- C7: the regeneration gate's floor is 80% of the unit's 1.8-inflated word
target; the gate discards low-word successes exactly when enabled and
attempts remain, keeps the low-word text on the final attempt, and is
separate from the 85% minimum stated inside the prompt text. -/
theorem C7_low_word_gate (cfg : SessionCfg) :
    (wordsPerChapter_gen cfg.wordsPerChapter =
        ⌊((9 : ℚ) / 5) * (cfg.wordsPerChapter : ℚ)⌋₊ ∧
      min_words_chap cfg =
        ⌊((4 : ℚ) / 5) * (wordsPerChapter_gen cfg.wordsPerChapter : ℚ)⌋₊ ∧
      min_words_sub cfg =
        ⌊((4 : ℚ) / 5) * (wordsPerSubchapter_gen cfg.wordsPerChapter : ℚ)⌋₊) ∧
    (∀ (p : String) (m a : Nat) (e : CallEvent) (rest : List CallEvent),
      a ≤ MAX_GENERATION_ATTEMPTS →
      e.resp ≠ QUOTA_EXCEEDED_ERROR_STRING →
      isErrorResponse e.resp = false →
      runAttempts p false m a (e :: rest) =
        (.accepted e.resp (pyWordCount e.resp) a, rest, [⟨a, p, e.resp⟩])) ∧
    (∀ (p : String) (m a : Nat) (e : CallEvent) (rest : List CallEvent),
      e.resp ≠ QUOTA_EXCEEDED_ERROR_STRING →
      isErrorResponse e.resp = false →
      pyWordCount e.resp < m → a < MAX_GENERATION_ATTEMPTS →
      runAttempts p true m a (e :: rest) =
        ((runAttempts p true m (a + 1) rest).1,
          (runAttempts p true m (a + 1) rest).2.1,
          ⟨a, p, e.resp⟩ :: (runAttempts p true m (a + 1) rest).2.2)) ∧
    (∀ (p : String) (m : Nat) (e : CallEvent) (rest : List CallEvent),
      e.resp ≠ QUOTA_EXCEEDED_ERROR_STRING →
      isErrorResponse e.resp = false →
      runAttempts p true m MAX_GENERATION_ATTEMPTS (e :: rest) =
        (.accepted e.resp (pyWordCount e.resp) MAX_GENERATION_ATTEMPTS, rest,
          [⟨MAX_GENERATION_ATTEMPTS, p, e.resp⟩])) ∧
    (∀ (option : Nat) (args : PromptArgs), option = 2 ∨ option = 3 →
      containsSegment (generatePrompt option args)
        ("Minimum should be around " ++
          (toString (minTargetWords
            (if option = 2 then args.wordsPerChapter
             else args.wordsPerSubchapter)) ++ " words.")) ∧
      (∀ t : Nat, minTargetWords t = ⌊((17 : ℚ) / 20) * (t : ℚ)⌋₊)) := by
  refine ⟨⟨?_, ?_, ?_⟩, ?_, ?_, ?_, ?_⟩
  · exact natDiv_mul_eq_floor 9 5 cfg.wordsPerChapter
  · exact natDiv_mul_eq_floor 4 5 (wordsPerChapter_gen cfg.wordsPerChapter)
  · exact natDiv_mul_eq_floor 4 5 (wordsPerSubchapter_gen cfg.wordsPerChapter)
  · intro p m a e rest ha hq he
    exact runAttempts_gate_disabled p m a e rest ha hq he
  · intro p m a e rest hq he hlow halt
    exact runAttempts_gate_retry p m a e rest hq he hlow halt
  · intro p m e rest hq he
    exact runAttempts_gate_keep p m e rest hq he
  · intro option args hopt
    refine ⟨?_, fun t => natDiv_mul_eq_floor 17 20 t⟩
    rw [generatePrompt_content option args hopt]
    exact contentPrompt_contains_min_words option args

/-- Witness for C7 at a concrete configuration and events: the gate keeps a
low-word final-attempt text, and the disabled gate accepts immediately. -/
theorem C7_witness :
    runAttempts "p" true 50 MAX_GENERATION_ATTEMPTS [⟨"tiny text", true⟩] =
      (.accepted "tiny text" (pyWordCount "tiny text")
        MAX_GENERATION_ATTEMPTS, [],
        [⟨MAX_GENERATION_ATTEMPTS, "p", "tiny text"⟩]) ∧
    runAttempts "p" false 50 1 [⟨"tiny text", true⟩] =
      (.accepted "tiny text" (pyWordCount "tiny text") 1, [],
        [⟨1, "p", "tiny text"⟩]) :=
  ⟨(C7_low_word_gate cfgTwoChapters).2.2.2.1 "p" 50 ⟨"tiny text", true⟩ []
      (by decide) (by decide),
   (C7_low_word_gate cfgTwoChapters).2.1 "p" 50 1 ⟨"tiny text", true⟩ []
      (by decide) (by decide) (by decide)⟩

/-! ### Outline-section extraction (C4) -/

/-- Matching the full chapter search string implies matching its
`"Chapter:"` head. -/
theorem chapterSearch_mono (c : Nat) (s : String)
    (h : pyStartsWith s (chapterSearchStr c) = true) :
    pyStartsWith s "Chapter:" = true := by
  rw [pyStartsWith, List.isPrefixOf_iff_prefix] at h ⊢
  refine List.IsPrefix.trans ?_ h
  have h1 : ("Chapter:" : String).data <+: ("Chapter: " : String).data := by
    decide
  have h2 : (chapterSearchStr c).data =
      ("Chapter: " : String).data ++ ((toString c).data ++ (":" : String).data) := by
    rw [chapterSearchStr, strData_append, strData_append, List.append_assoc]
  rw [h2]
  exact h1.trans (List.prefix_append _ _)

/-- Two distinct prefixes of equal length cannot both be prefixes of the same
list. -/
theorem prefix_excl {p₁ p₂ l : List Char} (h₁ : p₁ <+: l)
    (hlen : p₁.length = p₂.length) (hne : p₁ ≠ p₂) : ¬ p₂ <+: l := by
  intro h₂
  obtain ⟨t₁, rfl⟩ := h₁
  obtain ⟨t₂, he⟩ := h₂
  exact hne (List.append_inj he.symm hlen).1

/-- Lines before the matching marker are skipped. -/
theorem sectionScan_skip (isM isS : String → Bool) (pre rest : List String)
    (h : ∀ l ∈ pre, isM (pyStrip l) = false) :
    sectionScan isM isS (pre ++ rest) false =
      sectionScan isM isS rest false := by
  induction pre with
  | nil => rfl
  | cons l ls ih =>
    rw [List.cons_append, sectionScan]
    rw [if_neg (by simp [h l (List.mem_cons_self l ls)])]
    rw [if_neg (by simp)]
    rw [if_neg (by simp)]
    exact ih (fun x hx => h x (List.mem_cons_of_mem l hx))

/-- If no line matches the marker, the scan collects nothing. -/
theorem sectionScan_none (isM isS : String → Bool) (lines : List String)
    (h : ∀ l ∈ lines, isM (pyStrip l) = false) :
    sectionScan isM isS lines false = [] := by
  have := sectionScan_skip isM isS lines [] h
  rw [List.append_nil] at this
  rw [this]
  rfl

/-- Inside the matched section, non-blank non-stop lines are collected until
the stop line. -/
theorem sectionScan_collect (isM isS : String → Bool) (sums : List String)
    (stop : String) (post : List String)
    (hsums : ∀ l ∈ sums,
      isM (pyStrip l) = false ∧ isS (pyStrip l) = false ∧ pyStrip l ≠ "")
    (hstop : isM (pyStrip stop) = false) (hstop2 : isS (pyStrip stop) = true) :
    sectionScan isM isS (sums ++ stop :: post) true = sums := by
  induction sums with
  | nil =>
    rw [List.nil_append, sectionScan]
    rw [if_neg (by simp [hstop])]
    rw [if_pos (by simp [hstop2])]
  | cons l ls ih =>
    obtain ⟨h1, h2, h3⟩ := hsums l (List.mem_cons_self l ls)
    rw [List.cons_append, sectionScan]
    rw [if_neg (by simp [h1])]
    rw [if_neg (by simp [h2])]
    rw [if_pos (by simp [h3])]
    rw [ih (fun x hx => hsums x (List.mem_cons_of_mem l hx))]

/-- The scan from an unmatched prefix through the marker and the section. -/
theorem sectionScan_main (isM isS : String → Bool) (pre : List String)
    (mk : String) (sums : List String) (stop : String) (post : List String)
    (hpre : ∀ l ∈ pre, isM (pyStrip l) = false)
    (hmk : isM (pyStrip mk) = true)
    (hsums : ∀ l ∈ sums,
      isM (pyStrip l) = false ∧ isS (pyStrip l) = false ∧ pyStrip l ≠ "")
    (hstop : isM (pyStrip stop) = false) (hstop2 : isS (pyStrip stop) = true) :
    sectionScan isM isS (pre ++ mk :: (sums ++ stop :: post)) false =
      mk :: sums := by
  rw [sectionScan_skip isM isS pre _ hpre, sectionScan, if_pos hmk,
    sectionScan_collect isM isS sums stop post hsums hstop hstop2]

/-- C4: extracting chapter 3 from an outline that lists it before chapter 4
returns exactly the chapter-3 marker line and its summary lines, excluding
the chapter-4 marker; in general the scan collects from the matching chapter
marker until the next chapter marker or blank line; and when no marker
matches, the visible error placeholder is embedded in the prompt, whose
construction still completes. -/
theorem C4_outline_section_extraction :
    (∀ (c : Nat) (outline : String) (pre sums post : List String)
      (mkc stop : String),
      pySplitlines outline = pre ++ mkc :: (sums ++ stop :: post) →
      pyStartsWith (pyStrip mkc) (chapterSearchStr c) = true →
      chapterStop (pyStrip stop) = true →
      pyStartsWith (pyStrip stop) (chapterSearchStr c) = false →
      (∀ l ∈ pre, pyStartsWith (pyStrip l) (chapterSearchStr c) = false) →
      (∀ l ∈ sums,
        pyStrip l ≠ "" ∧ pyStartsWith (pyStrip l) "Chapter:" = false) →
      sectionLinesFor 2 outline c 0 = mkc :: sums ∧
      relevantOutline 2 outline c 0 "chapter" (toString c) =
        String.intercalate "\n" (mkc :: sums)) ∧
    (∀ (outline : String) (pre sums post : List String) (mk3 mk4 : String),
      pySplitlines outline = pre ++ mk3 :: (sums ++ mk4 :: post) →
      pyStartsWith (pyStrip mk3) (chapterSearchStr 3) = true →
      pyStartsWith (pyStrip mk4) (chapterSearchStr 4) = true →
      (∀ l ∈ pre, pyStartsWith (pyStrip l) (chapterSearchStr 3) = false) →
      (∀ l ∈ sums,
        pyStrip l ≠ "" ∧ pyStartsWith (pyStrip l) "Chapter:" = false) →
      sectionLinesFor 2 outline 3 0 = mk3 :: sums ∧
      relevantOutline 2 outline 3 0 "chapter" (toString 3) =
        String.intercalate "\n" (mk3 :: sums)) ∧
    (∀ (option : Nat) (args : PromptArgs), (option = 2 ∨ option = 3) →
      (∀ l ∈ pySplitlines args.bookOutline,
        pyStartsWith (pyStrip l)
          (if option = 2 then chapterSearchStr args.currentChapter
            else subchapterSearchStr args.currentSubchapter) = false) →
      relevantOutlineFor option args =
        outlineErrorPlaceholder (unitTypeOf option)
          (currentUnitNum option args.currentChapter args.currentSubchapter) ∧
      containsSegment (generatePrompt option args)
        (outlineErrorPlaceholder (unitTypeOf option)
          (currentUnitNum option args.currentChapter args.currentSubchapter))) := by
  have general : ∀ (c : Nat) (outline : String) (pre sums post : List String)
      (mkc stop : String),
      pySplitlines outline = pre ++ mkc :: (sums ++ stop :: post) →
      pyStartsWith (pyStrip mkc) (chapterSearchStr c) = true →
      chapterStop (pyStrip stop) = true →
      pyStartsWith (pyStrip stop) (chapterSearchStr c) = false →
      (∀ l ∈ pre, pyStartsWith (pyStrip l) (chapterSearchStr c) = false) →
      (∀ l ∈ sums,
        pyStrip l ≠ "" ∧ pyStartsWith (pyStrip l) "Chapter:" = false) →
      sectionLinesFor 2 outline c 0 = mkc :: sums ∧
      relevantOutline 2 outline c 0 "chapter" (toString c) =
        String.intercalate "\n" (mkc :: sums) := by
    intro c outline pre sums post mkc stop hlines hmk hstop hstopnm hpre hsums
    have hsums' : ∀ l ∈ sums,
        pyStartsWith (pyStrip l) (chapterSearchStr c) = false ∧
        chapterStop (pyStrip l) = false ∧ pyStrip l ≠ "" := by
      intro l hl
      obtain ⟨hne, hch⟩ := hsums l hl
      refine ⟨?_, ?_, hne⟩
      · by_contra hx
        rw [Bool.not_eq_false] at hx
        rw [chapterSearch_mono c _ hx] at hch
        cases hch
      · rw [chapterStop, hch]
        simp [hne]
    have hscan : sectionLinesFor 2 outline c 0 = mkc :: sums := by
      rw [sectionLinesFor, if_pos rfl, hlines]
      exact sectionScan_main _ _ pre mkc sums stop post hpre hmk hsums'
        hstopnm hstop
    refine ⟨hscan, ?_⟩
    rw [relevantOutline]
    simp only [hscan]
    rw [if_pos (by simp)]
  refine ⟨general, ?_, ?_⟩
  · intro outline pre sums post mk3 mk4 hlines h3 h4 hpre hsums
    refine general 3 outline pre sums post mk3 mk4 hlines h3 ?_ ?_ hpre hsums
    · rw [chapterStop, chapterSearch_mono 4 _ h4]
      simp
    · rw [pyStartsWith] at h4 ⊢
      rw [List.isPrefixOf_iff_prefix] at h4
      rw [Bool.eq_false_iff]
      intro hx
      rw [List.isPrefixOf_iff_prefix] at hx
      exact prefix_excl h4 (by decide) (by decide) hx
  · intro option args hopt hnone
    have hempty : sectionLinesFor option args.bookOutline args.currentChapter
        args.currentSubchapter = [] := by
      rcases hopt with rfl | rfl
      · rw [sectionLinesFor, if_pos rfl]
        exact sectionScan_none _ _ _ (by simpa using hnone)
      · rw [sectionLinesFor, if_neg (by norm_num)]
        exact sectionScan_none _ _ _ (by simpa using hnone)
    have hph : relevantOutlineFor option args =
        outlineErrorPlaceholder (unitTypeOf option)
          (currentUnitNum option args.currentChapter args.currentSubchapter) := by
      rw [relevantOutlineFor, relevantOutline]
      simp only [hempty]
      rw [if_neg (by simp)]
    refine ⟨hph, ?_⟩
    rw [generatePrompt_content option args hopt, ← hph]
    exact contentPrompt_contains_relevant_outline option args

/-- Witness for C4 at a concrete outline and a concrete no-match prompt. -/
theorem C4_witness :
    (sectionLinesFor 2 "Chapter: 3: T\nS3\nChapter: 4: U\nS4" 3 0 =
        "Chapter: 3: T" :: ["S3"] ∧
      relevantOutline 2 "Chapter: 3: T\nS3\nChapter: 4: U\nS4" 3 0 "chapter"
          (toString 3) =
        String.intercalate "\n" ("Chapter: 3: T" :: ["S3"])) ∧
    (relevantOutlineFor 2 argsNoMatch =
        outlineErrorPlaceholder (unitTypeOf 2)
          (currentUnitNum 2 argsNoMatch.currentChapter
            argsNoMatch.currentSubchapter) ∧
      containsSegment (generatePrompt 2 argsNoMatch)
        (outlineErrorPlaceholder (unitTypeOf 2)
          (currentUnitNum 2 argsNoMatch.currentChapter
            argsNoMatch.currentSubchapter))) :=
  ⟨C4_outline_section_extraction.2.1 "Chapter: 3: T\nS3\nChapter: 4: U\nS4"
      [] ["S3"] ["S4"] "Chapter: 3: T" "Chapter: 4: U" (by decide) (by decide)
      (by decide) (by intro l hl; cases hl) (by decide),
   C4_outline_section_extraction.2.2 2 argsNoMatch (Or.inl rfl) (by decide)⟩

/-! ### Outline chunking (C3) -/

/-- C3: the outline-item count is chapters times sub-chapters when
sub-chapters are used, else the chapter count; the chunked path is selected
iff the count exceeds 15; and a successful chunked pass produces
`ceil(N/3)` chunks where chunk `i` covers chapters `3i+1` through
`min(3(i+1), N)`, each chunk's prompt context is the previous chunk's
accepted (stripped) output, and the outline is the blank-line join of the
chunk outputs in order. -/
theorem C3_outline_chunking (cfg : SessionCfg) (evs : List CallEvent) :
    (0 < numberOfSubchapters cfg.wordsPerChapter →
      total_outline_items cfg.numberOfChapters cfg.wordsPerChapter =
        cfg.numberOfChapters * numberOfSubchapters cfg.wordsPerChapter) ∧
    (numberOfSubchapters cfg.wordsPerChapter = 0 →
      total_outline_items cfg.numberOfChapters cfg.wordsPerChapter =
        cfg.numberOfChapters) ∧
    ((generateOutlinePass cfg evs).usedChunks = true ↔
      OUTLINE_CHUNK_THRESHOLD <
        total_outline_items cfg.numberOfChapters cfg.wordsPerChapter) ∧
    (∀ out : String,
      OUTLINE_CHUNK_THRESHOLD <
        total_outline_items cfg.numberOfChapters cfg.wordsPerChapter →
      (generateOutlinePass cfg evs).outline = some out →
      ((generateOutlinePass cfg evs).chunkRuns.map (·.chunkIndex) =
        List.range
          (ceilNatDiv cfg.numberOfChapters CHAPTERS_PER_OUTLINE_CHUNK)) ∧
      (∀ run ∈ (generateOutlinePass cfg evs).chunkRuns,
        run.start_chap = 3 * run.chunkIndex + 1 ∧
        run.end_chap = min (3 * (run.chunkIndex + 1)) cfg.numberOfChapters) ∧
      (∀ r : ChunkRun,
        (generateOutlinePass cfg evs).chunkRuns.head? = some r →
        r.prevCtx = "") ∧
      List.Chain' (fun a b => b.prevCtx = a.chunkText)
        (generateOutlinePass cfg evs).chunkRuns ∧
      out = String.intercalate "\n\n"
        ((generateOutlinePass cfg evs).chunkRuns.map (·.chunkText))) := by
  refine ⟨?_, ?_, ?_, ?_⟩
  · intro h
    rw [total_outline_items, if_pos h]
  · intro h
    rw [total_outline_items, if_neg (by omega)]
  · by_cases hth : OUTLINE_CHUNK_THRESHOLD <
        total_outline_items cfg.numberOfChapters cfg.wordsPerChapter
    · simp only [generateOutlinePass, if_pos hth]
      split
      · exact iff_of_true rfl hth
      · exact iff_of_true rfl hth
    · simp only [generateOutlinePass, if_neg hth]
      split
      · simpa using hth
      · simpa using hth
  · intro out hth hout
    rcases hrec : outlineChunksGo cfg
        (List.range (ceilNatDiv cfg.numberOfChapters CHAPTERS_PER_OUTLINE_CHUNK))
        "" evs with ⟨o, rem⟩
    cases o with
    | none =>
      have hno : (generateOutlinePass cfg evs).outline = none := by
        simp only [generateOutlinePass, if_pos hth, hrec]
      rw [hno] at hout
      cases hout
    | some runs =>
      have hcr : (generateOutlinePass cfg evs).chunkRuns = runs := by
        simp only [generateOutlinePass, if_pos hth, hrec]
      have hol : (generateOutlinePass cfg evs).outline =
          some (String.intercalate "\n\n" (runs.map (·.chunkText))) := by
        simp only [generateOutlinePass, if_pos hth, hrec]
      rw [hol] at hout
      have hx : String.intercalate "\n\n" (runs.map (·.chunkText)) = out := by
        simpa using hout
      obtain ⟨hmap, hmem, hhead, hchain⟩ :=
        outlineChunksGo_spec cfg _ _ _ _ _ hrec
      rw [hcr]
      refine ⟨hmap, ?_, ?_, hchain, hx.symm⟩
      · intro run hr
        obtain ⟨h1, h2, _⟩ := hmem run hr
        constructor
        · rw [h1, show CHAPTERS_PER_OUTLINE_CHUNK = 3 from rfl]
          omega
        · rw [h2, show CHAPTERS_PER_OUTLINE_CHUNK = 3 from rfl, Nat.mul_comm]
      · intro r hr
        have hne : runs ≠ [] := by
          intro hnil
          rw [hnil] at hr
          cases hr
        rw [List.head?_eq_head hne] at hr
        cases hr
        exact hhead hne

/-- Witness for C3: the chunked session generates two chunks covering
chapters 1-3 and 4-6, chained and joined. -/
theorem C3_witness :
    ((generateOutlinePass cfgChunked evsTwoChunksOk).chunkRuns.map
        (·.chunkIndex) =
      List.range
        (ceilNatDiv cfgChunked.numberOfChapters CHAPTERS_PER_OUTLINE_CHUNK)) ∧
    (∀ run ∈ (generateOutlinePass cfgChunked evsTwoChunksOk).chunkRuns,
      run.start_chap = 3 * run.chunkIndex + 1 ∧
      run.end_chap = min (3 * (run.chunkIndex + 1))
        cfgChunked.numberOfChapters) ∧
    (∀ r : ChunkRun,
      (generateOutlinePass cfgChunked evsTwoChunksOk).chunkRuns.head? = some r →
      r.prevCtx = "") ∧
    List.Chain' (fun a b => b.prevCtx = a.chunkText)
      (generateOutlinePass cfgChunked evsTwoChunksOk).chunkRuns ∧
    "part one text\n\npart two text" = String.intercalate "\n\n"
      ((generateOutlinePass cfgChunked evsTwoChunksOk).chunkRuns.map
        (·.chunkText)) :=
  (C3_outline_chunking cfgChunked evsTwoChunksOk).2.2.2
    "part one text\n\npart two text" (by decide) (by decide)

/-! ### Continuity context (C6) -/

/-- Chapter-mode invariants of the content loop: the first unit's chapter
context is the incoming one, units are labelled by the chapter list in
order, and each later unit's chapter context is the previous unit's accepted
text when it was accepted and the previous unit's own context otherwise. -/
theorem contentGo_chapter_mode (cfg : SessionCfg) (outline : String)
    (h0 : numberOfSubchapters cfg.wordsPerChapter = 0) :
    ∀ (cs : List Nat) (lastChap : String) (total : Nat) (evs : List CallEvent),
      (∀ r : UnitRun,
        (contentGo cfg outline cs lastChap total evs).runs.head? = some r →
        r.ctxChap = lastChap) ∧
      ((contentGo cfg outline cs lastChap total evs).runs.map (·.chapter) =
        cs.take (contentGo cfg outline cs lastChap total evs).runs.length) ∧
      List.Chain'
        (fun a b => b.ctxChap =
          match a.outcome with
          | .accepted t _ _ => t
          | _ => a.ctxChap)
        (contentGo cfg outline cs lastChap total evs).runs := by
  intro cs
  induction cs with
  | nil =>
    intro lastChap total evs
    refine ⟨?_, ?_, ?_⟩ <;> simp [contentGo]
  | cons c cs ih =>
    intro lastChap total evs
    simp only [contentGo, if_neg (by omega : ¬ 0 < numberOfSubchapters
      cfg.wordsPerChapter)]
    split
    · rename_i t wc a heq
      obtain ⟨ihh, ihm, ihc⟩ := ih t (total + wc)
        (runAttempts (generatePrompt 2 (chapterPromptArgs cfg outline c lastChap))
          cfg.regenOnLowWords (min_words_chap cfg) 1 evs).2.1
      refine ⟨?_, ?_, ?_⟩
      · intro r hr
        rw [List.head?_cons] at hr
        cases hr
        rfl
      · simp only [List.map_cons, List.length_cons, List.take_succ_cons]
        rw [ihm]
      · rw [List.chain'_cons']
        refine ⟨?_, ihc⟩
        intro b hb
        exact ihh b hb
    · rename_i heq
      obtain ⟨ihh, ihm, ihc⟩ := ih lastChap total
        (runAttempts (generatePrompt 2 (chapterPromptArgs cfg outline c lastChap))
          cfg.regenOnLowWords (min_words_chap cfg) 1 evs).2.1
      refine ⟨?_, ?_, ?_⟩
      · intro r hr
        rw [List.head?_cons] at hr
        cases hr
        rfl
      · simp only [List.map_cons, List.length_cons, List.take_succ_cons]
        rw [ihm]
      · rw [List.chain'_cons']
        refine ⟨?_, ihc⟩
        intro b hb
        exact ihh b hb
    · refine ⟨?_, ?_, ?_⟩
      · intro r hr
        rw [List.head?_cons] at hr
        cases hr
        rfl
      · simp
      · simp
    · refine ⟨?_, ?_, ?_⟩
      · intro r hr
        rw [List.head?_cons] at hr
        cases hr
        rfl
      · simp
      · simp

/-- Sub-chapter-loop invariants: the first unit's sub-context is the incoming
one, units are labelled by the sub-chapter list in order, the chapter context
of every unit is the chapter's fixed previous-chapter text, and sub-contexts
are updated only on acceptance. -/
theorem contentSubsGo_spec (cfg : SessionCfg) (outline : String) (c : Nat)
    (lastChap : String) :
    ∀ (ss : List Nat) (lastSub : String) (parts : List String) (total : Nat)
      (evs : List CallEvent),
      (∀ r : UnitRun,
        (contentSubsGo cfg outline c lastChap ss lastSub parts total
            evs).runs.head? = some r →
        r.ctxSub = lastSub ∧ r.ctxChap = lastChap) ∧
      ((contentSubsGo cfg outline c lastChap ss lastSub parts total
          evs).runs.map (·.subchapter) =
        ss.take (contentSubsGo cfg outline c lastChap ss lastSub parts total
          evs).runs.length) ∧
      (∀ run ∈ (contentSubsGo cfg outline c lastChap ss lastSub parts total
          evs).runs, run.chapter = c) ∧
      List.Chain'
        (fun a b => b.ctxSub =
          match a.outcome with
          | .accepted t _ _ => t
          | _ => a.ctxSub)
        (contentSubsGo cfg outline c lastChap ss lastSub parts total evs).runs := by
  intro ss
  induction ss with
  | nil =>
    intro lastSub parts total evs
    refine ⟨?_, ?_, ?_, ?_⟩ <;> simp [contentSubsGo]
  | cons s ss ih =>
    intro lastSub parts total evs
    simp only [contentSubsGo]
    split
    · rename_i t wc a heq
      obtain ⟨ihh, ihm, ihch, ihc⟩ := ih t (parts ++ [t]) (total + wc)
        (runAttempts
          (generatePrompt 3 (subchapterPromptArgs cfg outline c s lastSub lastChap))
          cfg.regenOnLowWords (min_words_sub cfg) 1 evs).2.1
      refine ⟨?_, ?_, ?_, ?_⟩
      · intro r hr
        rw [List.head?_cons] at hr
        cases hr
        exact ⟨rfl, rfl⟩
      · simp only [List.map_cons, List.length_cons, List.take_succ_cons]
        rw [ihm]
      · intro run hrun
        rcases List.mem_cons.1 hrun with rfl | h
        · rfl
        · exact ihch run h
      · rw [List.chain'_cons']
        exact ⟨fun b hb => (ihh b hb).1, ihc⟩
    · rename_i heq
      obtain ⟨ihh, ihm, ihch, ihc⟩ := ih lastSub parts total
        (runAttempts
          (generatePrompt 3 (subchapterPromptArgs cfg outline c s lastSub lastChap))
          cfg.regenOnLowWords (min_words_sub cfg) 1 evs).2.1
      refine ⟨?_, ?_, ?_, ?_⟩
      · intro r hr
        rw [List.head?_cons] at hr
        cases hr
        exact ⟨rfl, rfl⟩
      · simp only [List.map_cons, List.length_cons, List.take_succ_cons]
        rw [ihm]
      · intro run hrun
        rcases List.mem_cons.1 hrun with rfl | h
        · rfl
        · exact ihch run h
      · rw [List.chain'_cons']
        exact ⟨fun b hb => (ihh b hb).1, ihc⟩
    · refine ⟨?_, ?_, ?_, ?_⟩
      · intro r hr
        rw [List.head?_cons] at hr
        cases hr
        exact ⟨rfl, rfl⟩
      · simp
      · intro run hrun
        rcases List.mem_cons.1 hrun with rfl | h
        · rfl
        · cases h
      · simp
    · refine ⟨?_, ?_, ?_, ?_⟩
      · intro r hr
        rw [List.head?_cons] at hr
        cases hr
        exact ⟨rfl, rfl⟩
      · simp
      · intro run hrun
        rcases List.mem_cons.1 hrun with rfl | h
        · rfl
        · cases h
      · simp

/-- In a chapter's sub-loop started with sub-chapters `1..m` and an empty
sub-context, any unit numbered 1 runs with the empty sub-context. -/
theorem contentSubsGo_sub1 (cfg : SessionCfg) (outline : String) (c : Nat)
    (lastChap : String) (m : Nat) (total : Nat) (evs : List CallEvent) :
    ∀ run ∈ (contentSubsGo cfg outline c lastChap (List.range' 1 m) "" []
        total evs).runs,
      run.subchapter = 1 → run.ctxSub = "" := by
  cases m with
  | zero =>
    intro run hrun
    simp [contentSubsGo] at hrun
  | succ m' =>
    rw [List.range'_succ]
    intro run hrun hsub
    revert hrun
    simp only [contentSubsGo]
    split
    · rename_i t wc a heq
      intro hrun
      rcases List.mem_cons.1 hrun with rfl | h
      · rfl
      · obtain ⟨_, hmap, _, _⟩ := contentSubsGo_spec cfg outline c lastChap
          (List.range' 2 m') t ([] ++ [t]) (total + wc) _
        have hin : run.subchapter ∈ List.range' 2 m' := by
          have : run.subchapter ∈ (contentSubsGo cfg outline c lastChap
              (List.range' 2 m') t ([] ++ [t]) (total + wc) _).runs.map
                (·.subchapter) := List.mem_map_of_mem _ h
          rw [hmap] at this
          exact List.take_subset _ _ this
        rw [hsub] at hin
        rw [List.mem_range'] at hin
        omega
    · rename_i heq
      intro hrun
      rcases List.mem_cons.1 hrun with rfl | h
      · rfl
      · obtain ⟨_, hmap, _, _⟩ := contentSubsGo_spec cfg outline c lastChap
          (List.range' 2 m') "" [] total _
        have hin : run.subchapter ∈ List.range' 2 m' := by
          have : run.subchapter ∈ (contentSubsGo cfg outline c lastChap
              (List.range' 2 m') "" [] total _).runs.map (·.subchapter) :=
            List.mem_map_of_mem _ h
          rw [hmap] at this
          exact List.take_subset _ _ this
        rw [hsub] at hin
        rw [List.mem_range'] at hin
        omega
    · intro hrun
      rcases List.mem_cons.1 hrun with rfl | h
      · rfl
      · cases h
    · intro hrun
      rcases List.mem_cons.1 hrun with rfl | h
      · rfl
      · cases h

/-- Across the whole sub-chapter-mode content phase, every first sub-chapter
unit runs with the empty sub-context. -/
theorem contentGo_sub1 (cfg : SessionCfg) (outline : String)
    (h0 : 0 < numberOfSubchapters cfg.wordsPerChapter) :
    ∀ (cs : List Nat) (lastChap : String) (total : Nat) (evs : List CallEvent),
      ∀ run ∈ (contentGo cfg outline cs lastChap total evs).runs,
        run.subchapter = 1 → run.ctxSub = "" := by
  intro cs
  induction cs with
  | nil =>
    intro lastChap total evs run hrun
    simp [contentGo] at hrun
  | cons c cs ih =>
    intro lastChap total evs run hrun hsub
    rw [contentGo, if_pos h0] at hrun
    by_cases hab : (contentSubsGo cfg outline c lastChap
        (List.range' 1 (numberOfSubchapters cfg.wordsPerChapter)) "" [] total
        evs).aborted
    · rw [if_pos hab] at hrun
      exact contentSubsGo_sub1 cfg outline c lastChap _ total evs run hrun hsub
    · rw [if_neg hab] at hrun
      rcases List.mem_append.1 hrun with h | h
      · exact contentSubsGo_sub1 cfg outline c lastChap _ total evs run h hsub
      · exact ih _ _ _ run h hsub

/-- C6 (amended): every chapter / sub-chapter prompt embeds at most the last
2000 characters of the corresponding continuity-context variable; the first
chapter runs with the empty chapter context and every first sub-chapter of a
chapter runs with the empty sub-context; in chapter mode the chapter context
advances only on acceptance (a failed unit leaves it unchanged), so it may
also be empty for a later chapter whose predecessors were never accepted. -/
theorem C6_continuity_context (cfg : SessionCfg) (outline : String)
    (evs : List CallEvent) :
    (∀ s : String, s ≠ "" →
      prevChapContext s = "... " ++ pyTakeRight s MAX_CONTEXT_CHARS ∧
      prevSubContext s = "... " ++ pyTakeRight s MAX_CONTEXT_CHARS) ∧
    (∀ (s : String) (n : Nat), (pyTakeRight s n).length ≤ n) ∧
    (∀ (option : Nat) (args : PromptArgs), option = 2 ∨ option = 3 →
      containsSegment (generatePrompt option args)
        (if option = 2 then prevChapContext args.lastGeneratedChapter_Full
          else prevSubContext args.lastGeneratedSubchapter_Full)) ∧
    (numberOfSubchapters cfg.wordsPerChapter = 0 →
      (∀ r : UnitRun, (runContent cfg outline evs).runs.head? = some r →
        r.chapter = 1 ∧ r.ctxChap = "") ∧
      List.Chain'
        (fun a b => b.ctxChap =
          match a.outcome with
          | .accepted t _ _ => t
          | _ => a.ctxChap)
        (runContent cfg outline evs).runs) ∧
    (0 < numberOfSubchapters cfg.wordsPerChapter →
      ∀ run ∈ (runContent cfg outline evs).runs,
        run.subchapter = 1 → run.ctxSub = "") := by
  refine ⟨?_, ?_, ?_, ?_, ?_⟩
  · intro s hs
    constructor
    · rw [prevChapContext, if_pos hs]
    · rw [prevSubContext, if_pos hs]
  · intro s n
    show (s.data.drop (s.data.length - n)).length ≤ n
    rw [List.length_drop]
    omega
  · intro option args hopt
    rw [generatePrompt_content option args hopt]
    exact contentPrompt_contains_context option args
  · intro h0
    simp only [runContent]
    obtain ⟨hh, hm, hc⟩ := contentGo_chapter_mode cfg outline h0
      (List.range' 1 cfg.numberOfChapters) "" 0 evs
    refine ⟨?_, hc⟩
    intro r hr
    refine ⟨?_, hh r hr⟩
    rcases hruns : (contentGo cfg outline (List.range' 1 cfg.numberOfChapters)
        "" 0 evs).runs with _ | ⟨r0, rest⟩
    · rw [hruns] at hr
      cases hr
    · rw [hruns] at hr hm
      rw [List.head?_cons] at hr
      cases hr
      rw [List.map_cons] at hm
      rcases hN : cfg.numberOfChapters with _ | N
      · rw [hN] at hm
        simp at hm
      · rw [hN, List.range'_succ] at hm
        rw [List.length_cons, List.take_succ_cons] at hm
        exact (List.cons.injEq .. ▸ hm).1
  · intro h0 run hrun hsub
    exact contentGo_sub1 cfg outline h0 _ _ _ _ run hrun hsub

/-- Counterexample to C6 as stated: when chapter 1 fails all four attempts,
chapter 2 also runs with the empty chapter-level context, so the context is
not empty exactly for the first chapter. -/
theorem C6_counterexample :
    (runContent cfgTwoChapters "outline" evsChapterOneFails).runs.map
        (fun r => (r.chapter, r.ctxChap, r.outcome)) =
      [(1, "", UnitOutcome.failedMax),
       (2, "", UnitOutcome.accepted "hello there world" 3 1)] := by
  decide

/-- Witness for C6 at a concrete session: the snippet shape and the
chapter-mode conclusions at the two-chapter configuration. -/
theorem C6_witness :
    (prevChapContext "abc" = "... " ++ pyTakeRight "abc" MAX_CONTEXT_CHARS ∧
      prevSubContext "abc" = "... " ++ pyTakeRight "abc" MAX_CONTEXT_CHARS) ∧
    ((∀ r : UnitRun,
        (runContent cfgTwoChapters "outline" evsChapterOneFails).runs.head? =
          some r → r.chapter = 1 ∧ r.ctxChap = "") ∧
      List.Chain'
        (fun a b => b.ctxChap =
          match a.outcome with
          | .accepted t _ _ => t
          | _ => a.ctxChap)
        (runContent cfgTwoChapters "outline" evsChapterOneFails).runs) :=
  ⟨(C6_continuity_context cfgTwoChapters "outline" evsChapterOneFails).1 "abc"
      (by decide),
   (C6_continuity_context cfgTwoChapters "outline" evsChapterOneFails).2.2.2.1
      (by decide)⟩

/-! ### split_string_into_chunks (C10): word-splitting lemmas -/

/-- Non-whitespace characters are absorbed into the current word. -/
theorem pySplitAux_word (w : List Char) (hw : ∀ ch ∈ w, ch.isWhitespace = false) :
    ∀ (rest cur : List Char),
      pySplitAux (w ++ rest) cur = pySplitAux rest (w.reverse ++ cur) := by
  induction w with
  | nil => intro rest cur; rfl
  | cons ch w' ih =>
    intro rest cur
    rw [List.cons_append, pySplitAux,
      if_neg (by simp [hw ch (List.mem_cons_self ch w')])]
    rw [ih (fun x hx => hw x (List.mem_cons_of_mem ch hx)) rest (ch :: cur)]
    rw [List.reverse_cons, List.append_assoc]
    rfl

/-- A whitespace separator splits the scan into two independent scans. -/
theorem pySplitAux_append_ws (d : Char) (hd : d.isWhitespace = true)
    (ys : List Char) :
    ∀ (xs cur : List Char),
      pySplitAux (xs ++ d :: ys) cur =
        pySplitAux xs cur ++ pySplitAux ys [] := by
  intro xs
  induction xs with
  | nil =>
    intro cur
    have h1 : pySplitAux (d :: ys) cur =
        if cur = [] then pySplitAux ys [] else cur.reverse :: pySplitAux ys [] := by
      rw [pySplitAux, if_pos hd]
    have h2 : pySplitAux ([] : List Char) cur =
        if cur = [] then [] else [cur.reverse] := rfl
    rw [List.nil_append, h1, h2]
    by_cases hc : cur = []
    · rw [if_pos hc, if_pos hc, List.nil_append]
    · rw [if_neg hc, if_neg hc]
      rfl
  | cons x xs ih =>
    intro cur
    rw [List.cons_append]
    have h1 : ∀ t : List Char, pySplitAux (x :: t) cur =
        if x.isWhitespace then
          (if cur = [] then pySplitAux t [] else cur.reverse :: pySplitAux t [])
        else pySplitAux t (x :: cur) := fun t => by rw [pySplitAux]
    rw [h1, h1]
    by_cases hx : x.isWhitespace = true
    · rw [if_pos hx, if_pos hx]
      by_cases hc : cur = []
      · rw [if_pos hc, if_pos hc, ih []]
      · rw [if_neg hc, if_neg hc, ih [], List.cons_append]
    · rw [if_neg hx, if_neg hx, ih (x :: cur)]

/-- A single non-whitespace word splits to itself. -/
theorem pySplitChars_word (w : List Char) (hne : w ≠ [])
    (hw : ∀ ch ∈ w, ch.isWhitespace = false) : pySplitChars w = [w] := by
  calc pySplitChars w = pySplitAux (w ++ []) [] := by rw [List.append_nil]; rfl
    _ = pySplitAux [] (w.reverse ++ []) := pySplitAux_word w hw [] []
    _ = [w] := by
        rw [List.append_nil, pySplitAux, if_neg (by simp [hne]),
          List.reverse_reverse]

/-- Splitting the space-join of a list of non-whitespace words recovers the
words. -/
theorem pySplitChars_spJoin (g : List (List Char))
    (hne : ∀ w ∈ g, w ≠ [])
    (hw : ∀ w ∈ g, ∀ ch ∈ w, ch.isWhitespace = false) :
    pySplitChars (spJoin g) = g := by
  induction g with
  | nil => rfl
  | cons w g' ih =>
    cases g' with
    | nil =>
      rw [show spJoin [w] = w from rfl]
      exact pySplitChars_word w (hne w (List.mem_cons_self w []))
        (hw w (List.mem_cons_self w []))
    | cons w' rest =>
      rw [show spJoin (w :: w' :: rest) = w ++ ' ' :: spJoin (w' :: rest)
        from rfl]
      rw [pySplitChars, pySplitAux_append_ws ' ' (by decide) _ w []]
      rw [show pySplitAux w [] = pySplitChars w from rfl,
        pySplitChars_word w (hne w (List.mem_cons_self w _))
          (hw w (List.mem_cons_self w _))]
      rw [show pySplitAux (spJoin (w' :: rest)) [] =
        pySplitChars (spJoin (w' :: rest)) from rfl]
      rw [ih (fun x hx => hne x (List.mem_cons_of_mem w hx))
        (fun x hx => hw x (List.mem_cons_of_mem w hx))]
      rfl

/-- Splitting the newline-join of chunks splits each chunk independently. -/
theorem pySplitChars_nlJoin (chunks : List (List Char)) :
    pySplitChars (nlJoin chunks) = (chunks.map pySplitChars).flatten := by
  induction chunks with
  | nil => rfl
  | cons c rest ih =>
    cases rest with
    | nil => simp [nlJoin]
    | cons c' rest' =>
      rw [show nlJoin (c :: c' :: rest') = c ++ '\n' :: nlJoin (c' :: rest')
        from rfl]
      rw [pySplitChars, pySplitAux_append_ws '\n' (by decide) _ c []]
      rw [show pySplitAux c [] = pySplitChars c from rfl,
        show pySplitAux (nlJoin (c' :: rest')) [] =
          pySplitChars (nlJoin (c' :: rest')) from rfl, ih]
      simp

/-- Every word produced by the splitter is nonempty and whitespace-free. -/
theorem pySplitAux_words_wf :
    ∀ (l cur : List Char), (∀ ch ∈ cur, ch.isWhitespace = false) →
      ∀ w ∈ pySplitAux l cur,
        w ≠ [] ∧ ∀ ch ∈ w, ch.isWhitespace = false := by
  intro l
  induction l with
  | nil =>
    intro cur hcur w hw
    rw [pySplitAux] at hw
    by_cases hc : cur = []
    · rw [if_pos hc] at hw
      cases hw
    · rw [if_neg hc] at hw
      rcases List.mem_cons.1 hw with rfl | h
      · refine ⟨by simp [hc], ?_⟩
        intro ch hch
        exact hcur ch (List.mem_reverse.1 hch)
      · cases h
  | cons c cs ih =>
    intro cur hcur w hw
    rw [pySplitAux] at hw
    by_cases hws : c.isWhitespace = true
    · rw [if_pos hws] at hw
      by_cases hc : cur = []
      · rw [if_pos hc] at hw
        exact ih [] (by simp) w hw
      · rw [if_neg hc] at hw
        rcases List.mem_cons.1 hw with rfl | h
        · refine ⟨by simp [hc], ?_⟩
          intro ch hch
          exact hcur ch (List.mem_reverse.1 hch)
        · exact ih [] (by simp) w h
    · rw [if_neg hws] at hw
      refine ih (c :: cur) ?_ w hw
      intro ch hch
      rcases List.mem_cons.1 hch with rfl | h
      · simpa using hws
      · exact hcur ch h

/-- The words of the splitter's output, for the empty accumulator. -/
theorem pySplitChars_words_wf (l : List Char) :
    ∀ w ∈ pySplitChars l, w ≠ [] ∧ ∀ ch ∈ w, ch.isWhitespace = false :=
  pySplitAux_words_wf l [] (by simp)

/-! ### split_string_into_chunks (C10): the chunking loop -/

/-- Flattening the chunk groups recovers the pending words and the input. -/
theorem chunkGroups_flatten (len : Nat) :
    ∀ (ws cur : List (List Char)) (curLen : Nat),
      (chunkGroups len ws cur curLen).flatten = cur ++ ws := by
  intro ws
  induction ws with
  | nil =>
    intro cur curLen
    by_cases hc : cur = []
    · simp [chunkGroups, hc]
    · simp [chunkGroups, hc]
  | cons w rest ih =>
    intro cur curLen
    simp only [chunkGroups]
    by_cases h1 : len < curLen + w.length + (if 0 < curLen then 1 else 0)
    · rw [if_pos h1]
      by_cases h2 : len < w.length
      · rw [if_pos h2]
        by_cases hc : cur = []
        · simp [hc, ih]
        · simp [hc, ih]
      · rw [if_neg h2]
        by_cases hc : cur = []
        · simp [hc, ih]
        · simp [hc, ih]
    · rw [if_neg h1, ih]
      simp

/-- `chunksAux` is the space-join of the chunk groups, appended to the chunks
already emitted. -/
theorem chunksAux_eq_groups (len : Nat) :
    ∀ (ws chunks cur : List (List Char)) (curLen : Nat),
      chunksAux len ws chunks cur curLen =
        chunks ++ (chunkGroups len ws cur curLen).map spJoin := by
  intro ws
  induction ws with
  | nil =>
    intro chunks cur curLen
    by_cases hc : cur = [] <;> simp [chunksAux, chunkGroups, hc]
  | cons w rest ih =>
    intro chunks cur curLen
    simp only [chunksAux, chunkGroups]
    by_cases h1 : len < curLen + w.length + (if 0 < curLen then 1 else 0)
    · rw [if_pos h1, if_pos h1]
      by_cases h2 : len < w.length
      · rw [if_pos h2, if_pos h2]
        by_cases hc : cur = []
        · simp [hc, ih, spJoin]
        · simp [hc, ih, spJoin]
      · rw [if_neg h2, if_neg h2]
        by_cases hc : cur = []
        · simp [hc, ih]
        · simp [hc, ih]
    · rw [if_neg h1, if_neg h1]
      exact ih chunks (cur ++ [w]) _

/-- Every chunk group emitted by the loop is nonempty. -/
theorem chunkGroups_groups_ne_nil (len : Nat) :
    ∀ (ws cur : List (List Char)) (curLen : Nat),
      ∀ g ∈ chunkGroups len ws cur curLen, g ≠ [] := by
  intro ws
  induction ws with
  | nil =>
    intro cur curLen g hg
    by_cases hc : cur = []
    · simp [chunkGroups, hc] at hg
    · simp only [chunkGroups, if_neg hc] at hg
      rw [List.mem_singleton.1 hg]
      exact hc
  | cons w rest ih =>
    intro cur curLen g hg
    simp only [chunkGroups] at hg
    by_cases h1 : len < curLen + w.length + (if 0 < curLen then 1 else 0)
    · rw [if_pos h1] at hg
      by_cases h2 : len < w.length
      · rw [if_pos h2] at hg
        rcases List.mem_append.1 hg with hgl | hgr
        · by_cases hc : cur = []
          · rw [if_pos hc] at hgl; cases hgl
          · rw [if_neg hc] at hgl
            rw [List.mem_singleton.1 hgl]
            exact hc
        · rcases List.mem_cons.1 hgr with rfl | hgr'
          · simp
          · exact ih [] 0 g hgr'
      · rw [if_neg h2] at hg
        rcases List.mem_append.1 hg with hgl | hgr
        · by_cases hc : cur = []
          · rw [if_pos hc] at hgl; cases hgl
          · rw [if_neg hc] at hgl
            rw [List.mem_singleton.1 hgl]
            exact hc
        · exact ih [w] w.length g hgr
    · rw [if_neg h1] at hg
      exact ih (cur ++ [w]) _ g hg

/-- Length of a space-join extended by one word. -/
theorem spJoin_append_length (w : List Char) :
    ∀ (cur : List (List Char)),
      (spJoin (cur ++ [w])).length =
        if cur = [] then w.length else (spJoin cur).length + 1 + w.length := by
  intro cur
  induction cur with
  | nil => simp [spJoin]
  | cons x cur' ih =>
    cases cur' with
    | nil =>
      simp [spJoin]
      omega
    | cons y rest =>
      have h1 : spJoin ((x :: y :: rest) ++ [w]) =
          x ++ ' ' :: spJoin ((y :: rest) ++ [w]) := rfl
      have h2 : spJoin (x :: y :: rest) = x ++ ' ' :: spJoin (y :: rest) := rfl
      rw [h1, h2, if_neg (by simp)]
      rw [if_neg (by simp)] at ih
      simp only [List.length_append, List.length_cons]
      omega

/-- Every chunk group joins to at most `len` characters, except a group that
is a single input word longer than `len`. -/
theorem chunkGroups_line_bound (len : Nat) :
    ∀ (ws cur : List (List Char)) (curLen : Nat),
      (∀ w ∈ ws, w ≠ []) →
      curLen = (spJoin cur).length →
      (cur = [] ↔ curLen = 0) →
      curLen ≤ len →
      ∀ g ∈ chunkGroups len ws cur curLen,
        (spJoin g).length ≤ len ∨
          ∃ w, g = [w] ∧ len < w.length ∧ w ∈ ws := by
  intro ws
  induction ws with
  | nil =>
    intro cur curLen _ hjoin _ hle g hg
    by_cases hc : cur = []
    · simp [chunkGroups, hc] at hg
    · simp only [chunkGroups, if_neg hc] at hg
      rw [List.mem_singleton.1 hg]
      left
      rw [← hjoin]
      exact hle
  | cons w rest ih =>
    intro cur curLen hws hjoin hiff hle g hg
    simp only [chunkGroups] at hg
    have hwne : w ≠ [] := hws w (List.mem_cons_self w rest)
    have hwl : w.length ≠ 0 := fun h => hwne (List.eq_nil_of_length_eq_zero h)
    have hrest : ∀ x ∈ rest, x ≠ [] :=
      fun x hx => hws x (List.mem_cons_of_mem w hx)
    by_cases h1 : len < curLen + w.length + (if 0 < curLen then 1 else 0)
    · rw [if_pos h1] at hg
      by_cases h2 : len < w.length
      · rw [if_pos h2] at hg
        rcases List.mem_append.1 hg with hgl | hgr
        · by_cases hc : cur = []
          · rw [if_pos hc] at hgl; cases hgl
          · rw [if_neg hc] at hgl
            rw [List.mem_singleton.1 hgl]
            left
            rw [← hjoin]
            exact hle
        · rcases List.mem_cons.1 hgr with rfl | hgr'
          · exact Or.inr ⟨w, rfl, h2, List.mem_cons_self w rest⟩
          · rcases ih [] 0 hrest rfl (by simp) (Nat.zero_le len) g hgr' with
              h | ⟨w', hw', hlen', hmem'⟩
            · exact Or.inl h
            · exact Or.inr ⟨w', hw', hlen', List.mem_cons_of_mem w hmem'⟩
      · rw [if_neg h2] at hg
        rcases List.mem_append.1 hg with hgl | hgr
        · by_cases hc : cur = []
          · rw [if_pos hc] at hgl; cases hgl
          · rw [if_neg hc] at hgl
            rw [List.mem_singleton.1 hgl]
            left
            rw [← hjoin]
            exact hle
        · have hjw : (w.length : Nat) = (spJoin [w]).length := rfl
          have hiw : ([w] : List (List Char)) = [] ↔ w.length = 0 :=
            ⟨fun h => absurd h (by simp), fun h => absurd h hwl⟩
          rcases ih [w] w.length hrest hjw hiw (Nat.le_of_not_lt h2) g hgr with
            h | ⟨w', hw', hlen', hmem'⟩
          · exact Or.inl h
          · exact Or.inr ⟨w', hw', hlen', List.mem_cons_of_mem w hmem'⟩
    · rw [if_neg h1] at hg
      have hpot : curLen + w.length + (if 0 < curLen then 1 else 0) =
          (spJoin (cur ++ [w])).length := by
        rw [spJoin_append_length]
        by_cases hc : cur = []
        · have h0 : curLen = 0 := hiff.1 hc
          rw [if_pos hc, h0, if_neg (by omega)]
          omega
        · have h0 : curLen ≠ 0 := fun h => hc (hiff.2 h)
          rw [if_neg hc, ← hjoin, if_pos (by omega)]
          omega
      have hine : (cur ++ [w] : List (List Char)) = [] ↔
          curLen + w.length + (if 0 < curLen then 1 else 0) = 0 :=
        ⟨fun h => absurd h (by simp), fun h => absurd h (by omega)⟩
      rcases ih (cur ++ [w]) _ hrest hpot hine (Nat.le_of_not_lt h1) g hg with
        h | ⟨w', hw', hlen', hmem'⟩
      · exact Or.inl h
      · exact Or.inr ⟨w', hw', hlen', List.mem_cons_of_mem w hmem'⟩

/-- The space-join of a nonempty group of nonempty words is nonempty. -/
theorem spJoin_ne_nil (g : List (List Char)) (hg : g ≠ [])
    (hw : ∀ w ∈ g, w ≠ []) : spJoin g ≠ [] := by
  cases g with
  | nil => exact absurd rfl hg
  | cons w g' =>
    cases g' with
    | nil => exact hw w (List.mem_cons_self w [])
    | cons w' rest =>
      rw [show spJoin (w :: w' :: rest) = w ++ ' ' :: spJoin (w' :: rest)
        from rfl]
      simp

/-- Every character of a space-join comes from a word of the group or is the
joining space. -/
theorem spJoin_mem_char (ch : Char) :
    ∀ (g : List (List Char)), ch ∈ spJoin g →
      (∃ w ∈ g, ch ∈ w) ∨ ch = ' ' := by
  intro g
  induction g with
  | nil => intro h; cases h
  | cons w g' ih =>
    intro h
    cases g' with
    | nil => exact Or.inl ⟨w, List.mem_cons_self w [], h⟩
    | cons w' rest =>
      rw [show spJoin (w :: w' :: rest) = w ++ ' ' :: spJoin (w' :: rest)
        from rfl] at h
      rcases List.mem_append.1 h with h | h
      · exact Or.inl ⟨w, List.mem_cons_self w _, h⟩
      · rcases List.mem_cons.1 h with rfl | h
        · exact Or.inr rfl
        · rcases ih h with ⟨x, hx, hchx⟩ | h
          · exact Or.inl ⟨x, List.mem_cons_of_mem w hx, hchx⟩
          · exact Or.inr h

/-- A nonempty newline-free string is a single line. -/
theorem pySplitlinesChars_single :
    ∀ (c : List Char), c ≠ [] → (∀ ch ∈ c, ch ≠ '\n') →
      pySplitlinesChars c = [c] := by
  intro c
  induction c with
  | nil => intro h _; exact absurd rfl h
  | cons ch c' ih =>
    intro _ hnl
    have hch : ¬(ch = '\n') := hnl ch (List.mem_cons_self ch c')
    have hstep : pySplitlinesChars (ch :: c') =
        match pySplitlinesChars c' with
        | [] => [[ch]]
        | l :: ls => (ch :: l) :: ls := by
      rw [pySplitlinesChars, if_neg hch]
    cases c' with
    | nil =>
      rw [hstep]
      rfl
    | cons d rest =>
      rw [hstep, ih (List.cons_ne_nil d rest)
        (fun x hx => hnl x (List.mem_cons_of_mem ch hx))]

/-- A newline splits `splitlines` after a newline-free prefix. -/
theorem pySplitlinesChars_append (tail : List Char) :
    ∀ (c : List Char), (∀ ch ∈ c, ch ≠ '\n') →
      pySplitlinesChars (c ++ '\n' :: tail) =
        c :: pySplitlinesChars tail := by
  intro c
  induction c with
  | nil =>
    intro _
    rw [List.nil_append, pySplitlinesChars, if_pos rfl]
  | cons ch c' ih =>
    intro hnl
    have hch : ¬(ch = '\n') := hnl ch (List.mem_cons_self ch c')
    have hstep : pySplitlinesChars (ch :: (c' ++ '\n' :: tail)) =
        match pySplitlinesChars (c' ++ '\n' :: tail) with
        | [] => [[ch]]
        | l :: ls => (ch :: l) :: ls := by
      rw [pySplitlinesChars, if_neg hch]
    rw [List.cons_append, hstep,
      ih (fun x hx => hnl x (List.mem_cons_of_mem ch hx))]

/-- `splitlines` of a newline-join of nonempty newline-free chunks recovers
the chunks. -/
theorem pySplitlinesChars_nlJoin :
    ∀ (chunks : List (List Char)),
      (∀ c ∈ chunks, c ≠ [] ∧ ∀ ch ∈ c, ch ≠ '\n') →
      pySplitlinesChars (nlJoin chunks) = chunks := by
  intro chunks
  induction chunks with
  | nil => intro _; rfl
  | cons c rest ih =>
    intro h
    cases rest with
    | nil =>
      exact pySplitlinesChars_single c (h c (List.mem_cons_self c [])).1
        (h c (List.mem_cons_self c [])).2
    | cons c' rest' =>
      rw [show nlJoin (c :: c' :: rest') = c ++ '\n' :: nlJoin (c' :: rest')
        from rfl]
      rw [pySplitlinesChars_append _ c (h c (List.mem_cons_self c _)).2]
      rw [ih (fun x hx => h x (List.mem_cons_of_mem c hx))]

/-- **C10.**  For every input string and every positive chunk length,
`split_string_into_chunks` preserves the word sequence — splitting its output
on whitespace yields exactly the input's whitespace-separated words in the
same order and multiplicity — and every line of the output has length at most
the chunk length unless that line consists of a single word longer than the
chunk length. -/
theorem C10_split_chunks (s : String) (chunk_length : Nat)
    (_hlen : 0 < chunk_length) :
    pySplit (split_string_into_chunks s chunk_length) = pySplit s ∧
    ∀ line ∈ pySplitlines (split_string_into_chunks s chunk_length),
      line.length ≤ chunk_length ∨
        ∃ w ∈ pySplit s, line = w ∧ chunk_length < w.length := by
  by_cases hs : s = ""
  · subst hs
    refine ⟨rfl, ?_⟩
    intro line hline
    have h0 : split_string_into_chunks "" chunk_length = "" := by
      rw [split_string_into_chunks, if_pos rfl]
    rw [h0, show pySplitlines "" = [] from rfl] at hline
    cases hline
  · have houtdata : (split_string_into_chunks s chunk_length).data =
        nlJoin ((chunkGroups chunk_length (pySplitChars s.data) [] 0).map
          spJoin) := by
      rw [split_string_into_chunks, if_neg hs]
      show nlJoin (chunksAux chunk_length (pySplitChars s.data) [] [] 0) = _
      rw [chunksAux_eq_groups, List.nil_append]
    have hwordswf : ∀ w ∈ pySplitChars s.data,
        w ≠ [] ∧ ∀ ch ∈ w, ch.isWhitespace = false :=
      pySplitChars_words_wf s.data
    have hflatten :
        (chunkGroups chunk_length (pySplitChars s.data) [] 0).flatten =
          pySplitChars s.data := by
      rw [chunkGroups_flatten]
      rfl
    have hmemword : ∀ g ∈ chunkGroups chunk_length (pySplitChars s.data) [] 0,
        ∀ w ∈ g, w ∈ pySplitChars s.data := by
      intro g hg w hw
      rw [← hflatten]
      exact List.mem_flatten.2 ⟨g, hg, hw⟩
    have hsplit : pySplitChars (nlJoin
        ((chunkGroups chunk_length (pySplitChars s.data) [] 0).map spJoin)) =
        pySplitChars s.data := by
      rw [pySplitChars_nlJoin, List.map_map]
      have hcongr :
          ∀ g ∈ chunkGroups chunk_length (pySplitChars s.data) [] 0,
            (pySplitChars ∘ spJoin) g = id g := by
        intro g hg
        exact pySplitChars_spJoin g
          (fun w hw => (hwordswf w (hmemword g hg w hw)).1)
          (fun w hw => (hwordswf w (hmemword g hg w hw)).2)
      rw [List.map_congr_left hcongr, List.map_id, hflatten]
    constructor
    · show (pySplitChars
          (split_string_into_chunks s chunk_length).data).map String.mk = _
      rw [houtdata, hsplit]
      rfl
    · intro line hline
      have hchunkwf : ∀ c ∈
          (chunkGroups chunk_length (pySplitChars s.data) [] 0).map spJoin,
          c ≠ [] ∧ ∀ ch ∈ c, ch ≠ '\n' := by
        intro c hc
        rcases List.mem_map.1 hc with ⟨g, hg, rfl⟩
        refine ⟨spJoin_ne_nil g
          (chunkGroups_groups_ne_nil chunk_length (pySplitChars s.data) [] 0
            g hg)
          (fun w hw => (hwordswf w (hmemword g hg w hw)).1), ?_⟩
        intro ch hch hnl
        rcases spJoin_mem_char ch g hch with ⟨w, hw, hchw⟩ | hsp
        · have hf := (hwordswf w (hmemword g hg w hw)).2 ch hchw
          rw [hnl] at hf
          exact absurd hf (by decide)
        · rw [hnl] at hsp
          exact absurd hsp (by decide)
      have hlines : pySplitlinesChars (nlJoin
          ((chunkGroups chunk_length (pySplitChars s.data) [] 0).map
            spJoin)) =
          (chunkGroups chunk_length (pySplitChars s.data) [] 0).map spJoin :=
        pySplitlinesChars_nlJoin _ hchunkwf
      rw [pySplitlines, houtdata, hlines] at hline
      rcases List.mem_map.1 hline with ⟨c, hc, rfl⟩
      rcases List.mem_map.1 hc with ⟨g, hg, rfl⟩
      rcases chunkGroups_line_bound chunk_length (pySplitChars s.data) [] 0
        (fun w hw => (hwordswf w hw).1) rfl (by simp) (Nat.zero_le _) g hg
        with hle | ⟨w, rfl, hlong, hmem⟩
      · exact Or.inl hle
      · exact Or.inr ⟨String.mk w,
          List.mem_map_of_mem String.mk hmem, rfl, hlong⟩

/-- Concrete instantiation of `C10_split_chunks`: the string
`"aaa bb c ddddd"` at chunk length 5 (the last word is longer than the chunk
length). -/
theorem C10_witness :
    0 < 5 ∧
      (pySplit (split_string_into_chunks "aaa bb c ddddd" 5) =
          pySplit "aaa bb c ddddd" ∧
        ∀ line ∈ pySplitlines (split_string_into_chunks "aaa bb c ddddd" 5),
          line.length ≤ 5 ∨
            ∃ w ∈ pySplit "aaa bb c ddddd",
              line = w ∧ 5 < w.length) :=
  ⟨by decide, C10_split_chunks "aaa bb c ddddd" 5 (by decide)⟩

end Bookei
